import Mathlib

/-!
Verification of the interview orchestration engine.

This file gives a shallow embedding, in Lean 4, of the turn-based interview
orchestration engine of this repository: the format validators
(`src/agent/validation/validators.ts`), the configuration validator, the state
model (`src/agent/state.ts`), the step handlers (`src/agent/nodes/*.ts`) and
the routing functions (`src/agent/graph.ts`), together with proofs of the key
behavioural properties.

Modelling conventions:
* JavaScript strings are Lean `String`s; `trim`, `toLowerCase`, `startsWith`,
  `includes` and `parseInt(_, 10)` are modelled below (`jsToLower` handles the
  ASCII range, which covers every string the engine itself compares).
* JavaScript numbers are modelled as `ℚ` (exact rationals; `NaN`/`Infinity`
  are outside the model).  Integer counters are `Nat`.
* Falsiness of a JS string (`if (s)`) is the test `s ≠ ""`; falsiness of a
  nullable is `Option`-emptiness.  `a || b` on strings is `jsOrStr`.
* A thrown exception is an `Option.none` result of the step function.
* Text produced by the language model (and canned/random fallback text where
  a claim does not depend on its exact content) enters the model as an
  oracle parameter of the step relation, so every theorem quantifies over
  all possible generated texts and over call success/failure.
-/

-- =============================================================================
-- JS string primitives
-- =============================================================================

/-- Model of `String.prototype.toLowerCase` restricted to ASCII (the engine
only lower-cases before comparisons against ASCII literals). -/
def jsToLower (s : String) : String :=
  String.mk (s.data.map Char.toLower)

/-- Model of `a.startsWith(b)` : `b` is a prefix of `a`. -/
def jsStartsWith (a b : String) : Bool :=
  b.data.isPrefixOf a.data

/-- Model of `a.includes(b)` : `b` occurs as a contiguous substring of `a`. -/
def jsIncludes (a b : String) : Bool :=
  decide (b.data <:+: a.data)

/-- Model of `String.prototype.trim` (ASCII whitespace; structural, so that
it evaluates by `decide`). -/
def jsTrim (s : String) : String :=
  String.mk (((s.data.dropWhile Char.isWhitespace).reverse.dropWhile Char.isWhitespace).reverse)

/-- Model of the JS string coalescing idiom `a || b` where `a` is a nullable
string: the empty string is falsy and also falls through to `b`. -/
def jsOrStr (a : Option String) (b : String) : String :=
  match a with
  | some x => if x = "" then b else x
  | none => b

/-- Model of `a || undefined` for a nullable string `a`: the empty string
collapses to `undefined`. -/
def truthyOptStr (a : Option String) : Option String :=
  match a with
  | some x => if x = "" then none else some x
  | none => none

-- =============================================================================
-- Decimal integers: `parseInt(_, 10)` and `Number.prototype.toString`
-- =============================================================================

/-- Digits of `n` base 10, least significant first, via explicit fuel so the
definition reduces by `decide`/`rfl`.  `natDigitsRev` instantiates the fuel. -/
def natDigitsRevFuel : Nat → Nat → List Char
  | 0, _ => []
  | fuel + 1, n =>
    if n = 0 then [] else Nat.digitChar (n % 10) :: natDigitsRevFuel fuel (n / 10)

/-- Digits of `n` base 10, least significant first. -/
def natDigitsRev (n : Nat) : List Char :=
  natDigitsRevFuel n n

/-- Decimal representation of a natural number (model of `toString` on a
non-negative integer JS number). -/
def natRepr (n : Nat) : String :=
  if n = 0 then "0" else String.mk (natDigitsRev n).reverse

/-- Decimal representation of an integer (model of `toString` on an integral
JS number). -/
def intRepr (n : Int) : String :=
  if n < 0 then String.mk ('-' :: (natDigitsRev n.natAbs).reverse) else natRepr n.toNat

/-- Numeric read-back of a digit list, most significant first. -/
def digitsVal (acc : Nat) (l : List Char) : Nat :=
  l.foldl (fun a c => 10 * a + (c.toNat - 48)) acc

/-- The leading run of decimal digits, read as a natural number; `none` when
the run is empty (`parseInt` yields `NaN`). -/
def parseLeadingNat (cs : List Char) : Option Nat :=
  match cs.takeWhile Char.isDigit with
  | [] => none
  | ds => some (digitsVal 0 ds)

/-- Model of `parseInt(s, 10)` on an already-trimmed character list: an
optional sign, then the leading digit run; trailing garbage is ignored;
`none` models `NaN`. -/
def parseIntChars (cs : List Char) : Option Int :=
  match cs with
  | [] => none
  | c :: rest =>
    if c = '-' then (parseLeadingNat rest).map (fun m => -(m : Int))
    else if c = '+' then (parseLeadingNat rest).map (fun m => (m : Int))
    else (parseLeadingNat (c :: rest)).map (fun m => (m : Int))

/-- Model of `parseInt(s, 10)`. -/
def parseIntJS (s : String) : Option Int :=
  parseIntChars s.data

-- =============================================================================
-- Format validators (src/agent/validation/validators.ts)
-- =============================================================================

/-- Result record of every per-kind format validator. -/
structure ValidationResult where
  isValid : Bool
  normalizedValue : Option String := none
  errorMessage : Option String := none
deriving DecidableEq, Repr

/-- `validateNumberScale`: integer parse of the trimmed response, valid iff the
value lies in `[1, 10]`, normalized to the canonical decimal string. -/
def validateNumberScale (response : String) : ValidationResult :=
  let trimmed := jsTrim response
  match parseIntJS trimmed with
  | none => ⟨false, none, some "Please provide a number between 1 and 10."⟩
  | some num =>
    if num < 1 ∨ num > 10 then
      ⟨false, none, some (intRepr num ++ " is out of range. Please provide a number between 1 and 10.")⟩
    else
      ⟨true, some (intRepr num), none⟩

/-- Yes-like synonym set of `validateYesNo`. -/
def yesVariants : List String :=
  ["yes", "y", "yeah", "yep", "yup", "sure", "absolutely", "definitely", "correct",
   "affirmative", "true"]

/-- No-like synonym set of `validateYesNo`. -/
def noVariants : List String :=
  ["no", "n", "nope", "nah", "negative", "not really", "false"]

/-- `validateYesNo`: case-insensitive trimmed match against the two synonym
sets, normalized to the literal strings yes / no. -/
def validateYesNo (response : String) : ValidationResult :=
  let trimmed := jsToLower (jsTrim response)
  if yesVariants.contains trimmed then ⟨true, some "yes", none⟩
  else if noVariants.contains trimmed then ⟨true, some "no", none⟩
  else ⟨false, none, some "Please answer with yes or no."⟩

/-- The digit characters surviving the non-digit strip of
`validatePhoneNumber`. -/
def strippedDigits (s : String) : List Char :=
  (jsTrim s).data.filter Char.isDigit

/-- `validatePhoneNumber`: strip every non-digit; 10 digits, 11 digits with a
leading country code 1 (stripped), or 7 to 15 digits are valid. -/
def validatePhoneNumber (response : String) : ValidationResult :=
  let digits := strippedDigits response
  if digits.length = 10 then ⟨true, some (String.mk digits), none⟩
  else if digits.length = 11 ∧ digits.head? = some '1' then
    ⟨true, some (String.mk (digits.drop 1)), none⟩
  else if 7 ≤ digits.length ∧ digits.length ≤ 15 then ⟨true, some (String.mk digits), none⟩
  else ⟨false, none, some "Please provide a valid phone number (e.g., 555-123-4567)."⟩

/-- `validateShortAnswer`: valid iff the trimmed response is non-empty. -/
def validateShortAnswer (response : String) : ValidationResult :=
  let trimmed := jsTrim response
  if trimmed.length = 0 then ⟨false, none, some "Please provide an answer."⟩
  else ⟨true, some trimmed, none⟩

/-- `validateLongAnswer`: valid iff the trimmed response is non-empty. -/
def validateLongAnswer (response : String) : ValidationResult :=
  let trimmed := jsTrim response
  if trimmed.length = 0 then ⟨false, none, some "Please share your thoughts on this question."⟩
  else ⟨true, some trimmed, none⟩

-- =============================================================================
-- Single-select validation (validators.ts : parseOptionIndex, validateSingleSelect)
-- =============================================================================

/-- `parseOptionIndex`: a numeric 1-based index inside `[1, maxOptions]`
(0-based on success), else a single lower-case letter index `a`, `b`, ...
bounded by the option count. -/
def parseOptionIndex (input : String) (maxOptions : Nat) : Option Nat :=
  match parseIntJS input with
  | some num =>
    if 1 ≤ num ∧ num ≤ (maxOptions : Int) then some (num - 1).toNat
    else
      match input.data with
      | [c] => if 97 ≤ c.toNat ∧ c.toNat < 97 + maxOptions then some (c.toNat - 97) else none
      | _ => none
  | none =>
    match input.data with
    | [c] => if 97 ≤ c.toNat ∧ c.toNat < 97 + maxOptions then some (c.toNat - 97) else none
    | _ => none

/-- The canned invalid-choice result of `validateSingleSelect`. -/
def singleSelectInvalid (options : List String) : ValidationResult :=
  ⟨false, none, some ("Please choose one of the options: " ++ String.intercalate ", " options)⟩

/-- `validateSingleSelect`: the response is trimmed and lower-cased, then the
four matching strategies run in order (exact, prefix in either direction,
containment of an option, index).  Each `options.find(...)` result passes
through the JS truthiness test `if (match)`, modelled by `truthyOptStr`, so a
found empty-string option falls through to the next strategy. -/
def validateSingleSelect (response : String) (options : List String) : ValidationResult :=
  let trimmed := jsToLower (jsTrim response)
  match truthyOptStr (options.find? (fun opt => jsToLower opt == trimmed)) with
  | some m => ⟨true, some m, none⟩
  | none =>
    match truthyOptStr (options.find? (fun opt =>
        jsStartsWith (jsToLower opt) trimmed || jsStartsWith trimmed (jsToLower opt))) with
    | some m => ⟨true, some m, none⟩
    | none =>
      match truthyOptStr (options.find? (fun opt => jsIncludes trimmed (jsToLower opt))) with
      | some m => ⟨true, some m, none⟩
      | none =>
        match parseOptionIndex trimmed options.length with
        | some idx =>
          match options.get? idx with
          | some m => ⟨true, some m, none⟩
          | none => singleSelectInvalid options
        | none => singleSelectInvalid options

-- Strategy functions as the specification words them (claim C5), used to
-- compare the implementation against the documented matching order.

/-- Spec strategy (a): first option equal to the lowered trimmed response,
case-insensitively. -/
def specExactMatch (options : List String) (t : String) : Option String :=
  options.find? (fun opt => jsToLower opt == t)

/-- Spec strategy (b): first option related to the response by a prefix match
in either direction, case-insensitively. -/
def specPrefixMatch (options : List String) (t : String) : Option String :=
  options.find? (fun opt => jsStartsWith (jsToLower opt) t || jsStartsWith t (jsToLower opt))

/-- Spec strategy (c): first option contained in the response,
case-insensitively. -/
def specContainsMatch (options : List String) (t : String) : Option String :=
  options.find? (fun opt => jsIncludes t (jsToLower opt))

/-- Spec strategy (d): the option selected by a numeric 1-based index or a
single-letter index bounded by the option count. -/
def specIndexMatch (options : List String) (t : String) : Option String :=
  (parseOptionIndex t options.length).bind options.get?

/-- The first strategy match in the documented order (a), (b), (c), (d). -/
def specFirstMatch (response : String) (options : List String) : Option String :=
  let t := jsToLower (jsTrim response)
  (specExactMatch options t).orElse (fun _ =>
    (specPrefixMatch options t).orElse (fun _ =>
      (specContainsMatch options t).orElse (fun _ => specIndexMatch options t)))

-- =============================================================================
-- JS values and the configuration validator (validators.ts : validateInterviewConfig)
-- =============================================================================

/-- Model of the JS values that can reach `validateInterviewConfig(config: unknown)`.
Numbers are exact rationals (`NaN`/`Infinity` are outside the model). -/
inductive JValue where
  | jnull
  | jundefined
  | jbool (b : Bool)
  | jnum (q : ℚ)
  | jstr (s : String)
  | jarr (xs : List JValue)
  | jobj (fields : List (String × JValue))

/-- JS truthiness. -/
def truthy : JValue → Bool
  | .jnull => false
  | .jundefined => false
  | .jbool b => b
  | .jnum q => q != 0
  | .jstr s => s != ""
  | .jarr _ => true
  | .jobj _ => true

/-- `typeof v === "object"` (true for `null`, arrays and plain objects). -/
def typeofIsObject : JValue → Bool
  | .jnull => true
  | .jarr _ => true
  | .jobj _ => true
  | _ => false

/-- Strict equality `v === "lit"` of a JS value against a string literal. -/
def isStrLit (v : JValue) (s : String) : Bool :=
  match v with
  | .jstr t => t == s
  | _ => false

/-- Property access on a value already known not to be nullish: a missing key
and every non-object receiver read as `undefined`.  (Access on `null` or
`undefined` throws instead; the callers below test `isNullish` first.) -/
def getF : JValue → String → JValue
  | .jobj fs, k => (List.lookup k fs).getD .jundefined
  | _, _ => .jundefined

/-- Receivers on which property access throws a `TypeError`. -/
def isNullish : JValue → Bool
  | .jnull => true
  | .jundefined => true
  | _ => false

/-- String interpolation `${v}` of a JS value into an error message.  Exact on
strings and booleans (the only cases exercised by type-correct inputs); the
display of non-integral numbers, arrays and objects is an approximation used
identically by the implementation model and the specification model. -/
def jsDisplay : JValue → String
  | .jstr s => s
  | .jbool b => if b then "true" else "false"
  | .jnull => "null"
  | .jundefined => "undefined"
  | .jnum q => if q.den = 1 then intRepr q.num else intRepr q.num ++ "/" ++ natRepr q.den
  | .jarr _ => "<array>"
  | .jobj _ => "[object Object]"

/-- The six recognized question kind literals. -/
def questionTypeNames : List String :=
  ["number_scale", "long_answer", "short_answer", "yes_no", "single_select", "phone_number"]

/-- `validTypes.includes(q.type)`: strict equality against the six literals,
hence false for every non-string. -/
def isValidTypeV : JValue → Bool
  | .jstr s => questionTypeNames.contains s
  | _ => false

/-- `typeof v === "string"`. -/
def isStrV : JValue → Bool
  | .jstr _ => true
  | _ => false

/-- `typeof v === "number"`. -/
def isNumV : JValue → Bool
  | .jnum _ => true
  | _ => false

/-- `v < 0` on a JS number (false for non-numbers, which the caller has
already excluded). -/
def numNegV : JValue → Bool
  | .jnum q => decide (q < 0)
  | _ => false

/-- `Array.isArray(v)`. -/
def isArrV : JValue → Bool
  | .jarr _ => true
  | _ => false

/-- `v.length` of an array value. -/
def arrLenV : JValue → Nat
  | .jarr xs => xs.length
  | _ => 0

/-- Result record `{ isValid, error? }` of the configuration validator. -/
structure ConfigCheck where
  isValid : Bool
  error : Option String := none
deriving DecidableEq, Repr

/-- The per-question loop of `validateInterviewConfig`; `dIdx` is the 1-based
display index used in the error messages.  A `none` result models the
`TypeError` thrown by property access on a `null`/`undefined` element. -/
def checkQuestionsImpl : Nat → List JValue → Option ConfigCheck
  | _, [] => some ⟨true, none⟩
  | dIdx, q :: rest =>
    if isNullish q then none
    else
      let ty := getF q "type"
      if !truthy ty then some ⟨false, some ("Question " ++ natRepr dIdx ++ ": type is required.")⟩
      else if !isValidTypeV ty then
        some ⟨false, some ("Question " ++ natRepr dIdx ++ ": invalid type \"" ++ jsDisplay ty ++ "\".")⟩
      else
        let tx := getF q "text"
        if !truthy tx || !isStrV tx then
          some ⟨false, some ("Question " ++ natRepr dIdx ++ ": text is required.")⟩
        else
          let mf := getF q "max_followups"
          if !isNumV mf || numNegV mf then
            some ⟨false, some ("Question " ++ natRepr dIdx ++ ": max_followups must be a non-negative number.")⟩
          else if isStrLit ty "single_select" then
            let opts := getF q "options"
            if !truthy opts || !isArrV opts || arrLenV opts = 0 then
              some ⟨false, some ("Question " ++ natRepr dIdx ++ ": single_select requires options array.")⟩
            else checkQuestionsImpl (dIdx + 1) rest
          else checkQuestionsImpl (dIdx + 1) rest

/-- `validateInterviewConfig`, translated clause by clause from the source. -/
def validateInterviewConfig (config : JValue) : Option ConfigCheck :=
  if !truthy config || !typeofIsObject config then
    some ⟨false, some "Interview config must be an object."⟩
  else
    let it := getF config "interview_type"
    if !truthy it then some ⟨false, some "interview_type is required."⟩
    else if !isStrLit it "screener" && !isStrLit it "exit" then
      some ⟨false, some ("Invalid interview_type: \"" ++ jsDisplay it ++ "\". Must be \"screener\" or \"exit\".")⟩
    else
      let qsv := getF config "questions"
      if !truthy qsv then some ⟨false, some "questions array is required."⟩
      else
        match qsv with
        | .jarr qs =>
          if qs.length = 0 then some ⟨false, some "questions array cannot be empty."⟩
          else checkQuestionsImpl 1 qs
        | _ => some ⟨false, some "questions must be an array."⟩

-- Specification-side checker, written from the claim wording (C3) as a
-- first-violation scan over the documented checking order, with the
-- max_followups condition amended from "non-negative integer" to the
-- "non-negative number" the code actually tests.

/-- Claim check: the question has a recognized kind. -/
def specKindCheck (dIdx : Nat) (q : JValue) : Option String :=
  let ty := getF q "type"
  if !truthy ty then some ("Question " ++ natRepr dIdx ++ ": type is required.")
  else if !isValidTypeV ty then
    some ("Question " ++ natRepr dIdx ++ ": invalid type \"" ++ jsDisplay ty ++ "\".")
  else none

/-- Claim check: the question has non-empty string text. -/
def specTextCheck (dIdx : Nat) (q : JValue) : Option String :=
  if truthy (getF q "text") && isStrV (getF q "text") then none
  else some ("Question " ++ natRepr dIdx ++ ": text is required.")

/-- Claim check (amended): max_followups is a non-negative number. -/
def specMaxCheck (dIdx : Nat) (q : JValue) : Option String :=
  if isNumV (getF q "max_followups") && !numNegV (getF q "max_followups") then none
  else some ("Question " ++ natRepr dIdx ++ ": max_followups must be a non-negative number.")

/-- Claim check: a single_select question carries a non-empty options array. -/
def specOptionsCheck (dIdx : Nat) (q : JValue) : Option String :=
  if isStrLit (getF q "type") "single_select" then
    if truthy (getF q "options") && isArrV (getF q "options") && !(arrLenV (getF q "options") = 0)
    then none
    else some ("Question " ++ natRepr dIdx ++ ": single_select requires options array.")
  else none

/-- First violated per-question check, in the documented order. -/
def specQuestionFirstViolation (dIdx : Nat) (q : JValue) : Option String :=
  [specKindCheck dIdx q, specTextCheck dIdx q, specMaxCheck dIdx q,
    specOptionsCheck dIdx q].findSome? id

/-- Fail-fast scan over the questions. -/
def specQuestionsLoop : Nat → List JValue → Option ConfigCheck
  | _, [] => some ⟨true, none⟩
  | dIdx, q :: rest =>
    if isNullish q then none
    else
      match specQuestionFirstViolation dIdx q with
      | some m => some ⟨false, some m⟩
      | none => specQuestionsLoop (dIdx + 1) rest

/-- First violated header check (object shape, interview_type literal,
questions array non-empty), in the documented order. -/
def specHeaderViolation (config : JValue) : Option String :=
  [ (if truthy config && typeofIsObject config then none
     else some "Interview config must be an object."),
    (let it := getF config "interview_type"
     if !truthy it then some "interview_type is required."
     else if isStrLit it "screener" || isStrLit it "exit" then none
     else some ("Invalid interview_type: \"" ++ jsDisplay it ++ "\". Must be \"screener\" or \"exit\".")),
    (let qsv := getF config "questions"
     if !truthy qsv then some "questions array is required."
     else
       match qsv with
       | .jarr qs => if qs.length = 0 then some "questions array cannot be empty." else none
       | _ => some "questions must be an array.") ].findSome? id

/-- The claim-side validator: report the first violation in the documented
order, else scan the questions fail-fast. -/
def configSpecChecker (config : JValue) : Option ConfigCheck :=
  match specHeaderViolation config with
  | some m => some ⟨false, some m⟩
  | none =>
    match getF config "questions" with
    | .jarr qs => specQuestionsLoop 1 qs
    | _ => some ⟨true, none⟩

/-- Validity of one question as the claim words it (with the amended
"non-negative number" condition): recognized kind, non-empty string text,
non-negative number max_followups, options present and non-empty when
single_select. -/
def questionOkB (q : JValue) : Bool :=
  isValidTypeV (getF q "type") &&
  (truthy (getF q "text") && isStrV (getF q "text")) &&
  (isNumV (getF q "max_followups") && !numNegV (getF q "max_followups")) &&
  (!isStrLit (getF q "type") "single_select" ||
    (truthy (getF q "options") && isArrV (getF q "options") &&
      !(arrLenV (getF q "options") == 0)))

/-- Overall validity as the amended claim words it. -/
def amendedConfigOkB (v : JValue) : Bool :=
  (isStrLit (getF v "interview_type") "screener" ||
    isStrLit (getF v "interview_type") "exit") &&
  (match getF v "questions" with
   | .jarr qs => !qs.isEmpty && qs.all questionOkB
   | _ => false)

/-- Validity of one question exactly as claim C3 states it, requiring a
non-negative *integer* max_followups. -/
def claimQuestionOkB (q : JValue) : Bool :=
  isValidTypeV (getF q "type") &&
  (truthy (getF q "text") && isStrV (getF q "text")) &&
  (match getF q "max_followups" with
   | .jnum m => decide (0 ≤ m) && decide (m.den = 1)
   | _ => false) &&
  (!isStrLit (getF q "type") "single_select" ||
    (truthy (getF q "options") && isArrV (getF q "options") &&
      !(arrLenV (getF q "options") == 0)))

/-- Overall validity exactly as claim C3 states it. -/
def claimConfigOkB (v : JValue) : Bool :=
  (isStrLit (getF v "interview_type") "screener" ||
    isStrLit (getF v "interview_type") "exit") &&
  (match getF v "questions" with
   | .jarr qs => !qs.isEmpty && qs.all claimQuestionOkB
   | _ => false)

-- =============================================================================
-- Engine data model (src/agent/state.ts)
-- =============================================================================

/-- The closed set of question kinds. -/
inductive QuestionType where
  | number_scale
  | long_answer
  | short_answer
  | yes_no
  | single_select
  | phone_number
deriving DecidableEq, Repr

/-- The two interview variants. -/
inductive IType where
  | screener
  | exit
deriving DecidableEq, Repr

/-- The three concern kinds. -/
inductive ConcernType where
  | eeoc
  | outside_scope
  | incident
deriving DecidableEq, Repr

/-- A question record.  `max_followups` is a JS number, hence a rational in
the model; the configuration validator only enforces that it is non-negative. -/
structure Question where
  type : QuestionType
  text : String
  max_followups : ℚ
  group : Option String := none
  options : Option (List String) := none
deriving DecidableEq, Repr

/-- The input configuration (`llm_fallback ?? false` already resolved). -/
structure InterviewConfig where
  interview_type : IType
  questions : List Question
  llm_fallback : Bool := false
deriving DecidableEq, Repr

/-- Categories produced by response analysis. -/
structure ResponseCategories where
  hasConcerns : Bool
  concernType : Option ConcernType := none
  concernDetails : Option String := none
  isProperResponse : Bool
  needsMoreContext : Bool
deriving DecidableEq, Repr

/-- One follow-up question/answer exchange. -/
structure FollowupExchange where
  question : String
  answer : String
  translatedAnswer : Option String := none
deriving DecidableEq, Repr

/-- The stored record of one answered question. -/
structure QuestionResponse where
  questionIndex : Nat
  questionText : String
  questionType : QuestionType
  group : Option String := none
  rawAnswer : String
  translatedAnswer : Option String := none
  wasTranslated : Bool
  wasSkipped : Bool
  hadConcerns : Bool
  concernType : Option ConcernType := none
  followups : List FollowupExchange
deriving DecidableEq, Repr

/-- Message roles (the tagged form of the heterogeneous message shapes the
source duck-types; `user` is the human role). -/
inductive Role where
  | assistant
  | user
deriving DecidableEq, Repr

/-- A conversation message. -/
structure Msg where
  role : Role
  content : String
deriving DecidableEq, Repr

/-- A role-tagged transcript entry. -/
structure TranscriptMessage where
  role : Role
  content : String
  timestamp : String
deriving DecidableEq, Repr

/-- The final transcript. -/
structure TranscriptOutput where
  interviewType : IType
  startedAt : String
  completedAt : String
  questionCount : Nat
  questionsAnswered : Nat
  concernsDetected : Nat
  responses : List QuestionResponse
  fullTranscript : List TranscriptMessage
deriving DecidableEq, Repr

/-- The interview state (`InterviewState`), one field per state-graph channel.
All channels replace wholesale except `messages`, whose reducer appends. -/
structure EState where
  interviewType : IType
  questions : List Question
  llmFallback : Bool
  currentQuestionIndex : Nat
  currentFollowupCount : Nat
  rawResponse : Option String
  translatedResponse : Option String
  wasTranslated : Bool
  categories : Option ResponseCategories
  needsReprompt : Bool
  repromptReason : Option String
  responses : List QuestionResponse
  currentFollowups : List FollowupExchange
  messages : List Msg
  startedAt : Option String
  isComplete : Bool
  transcript : Option TranscriptOutput
deriving DecidableEq, Repr

/-- `getCurrentQuestion`: the question at the current index, none when the
index has run past the catalog. -/
def getCurrentQuestion (s : EState) : Option Question :=
  if s.currentQuestionIndex ≥ s.questions.length then none
  else s.questions.get? s.currentQuestionIndex

/-- `isBasicQuestion`: no follow-ups allowed, no analysis needed. -/
def isBasicQuestion (q : Question) : Bool :=
  q.max_followups == 0

/-- `hasMoreQuestions`. -/
def hasMoreQuestions (s : EState) : Bool :=
  s.currentQuestionIndex < s.questions.length

/-- `canAskFollowup`: a current question exists and the follow-up count is
still below its `max_followups`. -/
def canAskFollowup (s : EState) : Bool :=
  match getCurrentQuestion s with
  | none => false
  | some q => decide ((s.currentFollowupCount : ℚ) < q.max_followups)

/-- `state.categories?.hasConcerns` under JS optional chaining. -/
def catsHasConcerns (s : EState) : Bool :=
  (s.categories.map (fun c => c.hasConcerns)).getD false

/-- `state.categories?.isProperResponse` under JS optional chaining. -/
def catsIsProper (s : EState) : Bool :=
  (s.categories.map (fun c => c.isProperResponse)).getD false

-- =============================================================================
-- validateResponse dispatch (validators.ts)
-- =============================================================================

/-- `validateResponse`: dispatch on the question kind.  The default branch of the source
branch (unknown kind accepted as short answer) is unreachable for the closed
kind enum. -/
def validateResponse (response : String) (question : Question) : ValidationResult :=
  match question.type with
  | .number_scale => validateNumberScale response
  | .yes_no => validateYesNo response
  | .single_select =>
    match question.options with
    | none => ⟨false, none, some "No options available for this question."⟩
    | some [] => ⟨false, none, some "No options available for this question."⟩
    | some opts => validateSingleSelect response opts
  | .phone_number => validatePhoneNumber response
  | .short_answer => validateShortAnswer response
  | .long_answer => validateLongAnswer response

-- =============================================================================
-- Step handlers (src/agent/nodes/*.ts)
-- =============================================================================

/-- Append one assistant message. -/
def pushAssistant (s : EState) (content : String) : EState :=
  { s with messages := s.messages ++ [⟨.assistant, content⟩] }

/-- The typed restriction of `validateInterviewConfig` applied by `initialize`
to an `InterviewConfig` value (the interview_type literal and the questions
array shape already hold by type). -/
def configOkB (cfg : InterviewConfig) : Bool :=
  !cfg.questions.isEmpty &&
  cfg.questions.all (fun q =>
    q.text != "" &&
    decide (0 ≤ q.max_followups) &&
    (!(q.type == QuestionType.single_select) ||
      (match q.options with
       | some (_ :: _) => true
       | _ => false)))

/-- The `initialize` fallback that rebuilds the input config from state
fields; inactive while `questions` is empty (the falsy `state.questions`
check). -/
def stateCfgOf (s : EState) : Option InterviewConfig :=
  if s.questions.isEmpty then none
  else some ⟨s.interviewType, s.questions, s.llmFallback⟩

/-- `initialize`: return `{}` once started; otherwise take the configurable
config (or the state fields), validate it — throwing on failure — and set up
the fresh progress state plus a welcome message.  `welcome` and `now` are
oracle parameters (generated/canned text and the clock). -/
def initializeNode (s : EState) (ocfg : Option InterviewConfig)
    (welcome now : String) : Option EState :=
  if ¬s.questions.isEmpty ∧ s.startedAt.isSome then some s
  else
    match ocfg.orElse (fun _ => stateCfgOf s) with
    | none => none
    | some cfg =>
      if configOkB cfg then
        some { s with
          interviewType := cfg.interview_type
          questions := cfg.questions
          llmFallback := cfg.llm_fallback
          currentQuestionIndex := 0
          currentFollowupCount := 0
          responses := []
          currentFollowups := []
          startedAt := some now
          isComplete := false
          messages := s.messages ++ [⟨.assistant, welcome⟩] }
      else none

/-- `askQuestion`: throws without a current question; otherwise resets the
per-question turn state and emits the (generated or verbatim) question text. -/
def askQuestionNode (s : EState) (qmsg : String) : Option EState :=
  match getCurrentQuestion s with
  | none => none
  | some _ =>
    some { s with
      currentFollowupCount := 0
      currentFollowups := []
      rawResponse := none
      translatedResponse := none
      wasTranslated := false
      categories := none
      needsReprompt := false
      repromptReason := none
      messages := s.messages ++ [⟨.assistant, qmsg⟩] }

/-- The last user message scanned from the end of the log (`getLastUserMessage`). -/
def getLastUserMessage (s : EState) : Option String :=
  (s.messages.reverse.find? (fun m => m.role == Role.user)).map (fun m => m.content)

/-- `translateIfNeeded`: record the raw response; in fallback mode or on call
failure keep it verbatim; otherwise store the translated text `tr` and flag
`wasTranslated` when it differs case-insensitively from the raw text. -/
def translateNode (s : EState) (tr : String) (callFailed : Bool) : EState :=
  match truthyOptStr (getLastUserMessage s) with
  | none => { s with rawResponse := none, translatedResponse := none, wasTranslated := false }
  | some raw =>
    if s.llmFallback ∨ callFailed then
      { s with rawResponse := some raw, translatedResponse := some raw, wasTranslated := false }
    else
      { s with
        rawResponse := some raw
        translatedResponse := some tr
        wasTranslated := jsToLower tr != jsToLower raw }

/-- `validateFormat`: throws without a current question; a falsy response or
a failed format check set `needsReprompt`; success clears the flag and
replaces the response with its normalized value (`|| response`). -/
def validateFormatNode (s : EState) : Option EState :=
  match getCurrentQuestion s with
  | none => none
  | some q =>
    match truthyOptStr s.translatedResponse with
    | none =>
      some { s with needsReprompt := true, repromptReason := some "No response provided." }
    | some r =>
      let vr := validateResponse r q
      if vr.isValid then
        some { s with
          needsReprompt := false
          repromptReason := none
          translatedResponse := some (jsOrStr vr.normalizedValue r) }
      else
        some { s with
          needsReprompt := true
          repromptReason := some (jsOrStr vr.errorMessage "Invalid response format.") }

/-- `reprompt`: throws without a current question; clears the flag and emits
a (generated or canned) reprompt message. -/
def repromptNode (s : EState) (msg : String) : Option EState :=
  match getCurrentQuestion s with
  | none => none
  | some _ =>
    some { s with
      needsReprompt := false
      repromptReason := none
      messages := s.messages ++ [⟨.assistant, msg⟩] }

/-- `storeBasicResponse`: throws without a current question; appends the
response record, advances the index, clears the per-turn scratch state and
emits a canned acknowledgement (`ack` resolves the random choice). -/
def storeBasicNode (s : EState) (ack : String) : Option EState :=
  match getCurrentQuestion s with
  | none => none
  | some q =>
    some { s with
      responses := s.responses ++
        [{ questionIndex := s.currentQuestionIndex
           questionText := q.text
           questionType := q.type
           group := q.group
           rawAnswer := jsOrStr s.rawResponse ""
           translatedAnswer := if s.wasTranslated then truthyOptStr s.translatedResponse else none
           wasTranslated := s.wasTranslated
           wasSkipped := false
           hadConcerns := false
           concernType := none
           followups := [] }]
      currentQuestionIndex := s.currentQuestionIndex + 1
      rawResponse := none
      translatedResponse := none
      wasTranslated := false
      categories := none
      currentFollowups := []
      currentFollowupCount := 0
      messages := s.messages ++ [⟨.assistant, ack⟩] }

/-- `storeAssessmentResponse`: like the basic store but records the concern
verdict and the accumulated follow-up exchanges, and emits no message. -/
def storeAssessmentNode (s : EState) : Option EState :=
  match getCurrentQuestion s with
  | none => none
  | some q =>
    some { s with
      responses := s.responses ++
        [{ questionIndex := s.currentQuestionIndex
           questionText := q.text
           questionType := q.type
           group := q.group
           rawAnswer := jsOrStr s.rawResponse ""
           translatedAnswer := if s.wasTranslated then truthyOptStr s.translatedResponse else none
           wasTranslated := s.wasTranslated
           wasSkipped := false
           hadConcerns := catsHasConcerns s
           concernType := s.categories.bind (fun c => c.concernType)
           followups := s.currentFollowups }]
      currentQuestionIndex := s.currentQuestionIndex + 1
      rawResponse := none
      translatedResponse := none
      wasTranslated := false
      categories := none
      currentFollowups := []
      currentFollowupCount := 0 }

-- Parallel analysis (src/agent/nodes, analyzeResponseParallel)

/-- The concern-check verdict. -/
structure ConcernResult where
  hasConcerns : Bool
  concernType : Option ConcernType := none
  concernDetails : Option String := none
deriving DecidableEq, Repr

/-- The completeness-check verdict. -/
structure ProperResult where
  isProperResponse : Bool
  needsMoreContext : Bool
deriving DecidableEq, Repr

/-- Parsing of the concern-check reply text (`checkConcernsAsync`, success
path): keyword scan of the lower-cased content. -/
def parseConcernContent (content : String) : ConcernResult :=
  let lc := jsToLower content
  let has := jsIncludes lc "eeoc" || jsIncludes lc "incident" ||
    jsIncludes lc "outside_scope" || jsIncludes lc "yes"
  if has then
    if jsIncludes lc "eeoc" then
      ⟨true, some .eeoc, some "Response contains potential EEOC-related content"⟩
    else if jsIncludes lc "incident" then
      ⟨true, some .incident, some "Response mentions a reportable incident"⟩
    else if jsIncludes lc "outside_scope" then
      ⟨true, some .outside_scope, some "Response is outside the scope of the interview"⟩
    else ⟨true, none, none⟩
  else ⟨false, none, none⟩

/-- `checkConcernsAsync` behind its local failure boundary: a thrown call
degrades to the no-concern default. -/
def checkConcernsAsyncFn (outcome : Except Unit String) : ConcernResult :=
  match outcome with
  | .error _ => ⟨false, none, none⟩
  | .ok content => parseConcernContent content

/-- `checkProperResponseAsync` behind its local failure boundary: a thrown
call degrades to the complete-answer default. -/
def checkProperResponseFn (outcome : Except Unit String) : ProperResult :=
  match outcome with
  | .error _ => ⟨true, false⟩
  | .ok content =>
    let lc := jsToLower content
    let needs := jsIncludes lc "no" || jsIncludes lc "incomplete" || jsIncludes lc "vague"
    ⟨!needs, needs⟩

/-- The safe default categories (no concern, proper response). -/
def defaultCats : ResponseCategories :=
  ⟨false, none, none, true, false⟩

/-- `analyzeResponseParallel`, success path of the join: without a current
question or in fallback mode the defaults are used; otherwise the two call
outcomes (each an `Except` resolving success text or a thrown error) are
combined.  Total: no error propagates out of the node. -/
def analyzeNode (s : EState) (co po : Except Unit String) : EState :=
  match getCurrentQuestion s with
  | none => { s with categories := some defaultCats }
  | some _ =>
    if s.llmFallback then { s with categories := some defaultCats }
    else
      let cr := checkConcernsAsyncFn co
      let pr := checkProperResponseFn po
      { s with categories := some (ResponseCategories.mk cr.hasConcerns cr.concernType
          cr.concernDetails pr.isProperResponse pr.needsMoreContext) }

/-- `analyzeResponseParallel`, catch branch: the joined parallel analysis
failed as a whole and the safe defaults are installed. -/
def analyzeJoinFailNode (s : EState) : EState :=
  { s with categories := some defaultCats }

/-- The canned concern responses (`CONCERN_RESPONSES`). -/
def getConcernResponse (ct : ConcernType) : String :=
  match ct with
  | .eeoc => "Thank you for sharing that with me. What you\x27ve described sounds important, and I want you to know that concerns like this are taken seriously. If you\x27d like to formally report this, you can contact HR directly or use the company\x27s anonymous reporting system. For now, I\x27ll make a note of this, and we can continue when you\x27re ready."
  | .outside_scope => "I appreciate you sharing that. Let me bring us back to the interview questions so we can make sure to cover everything. We can continue with the next question."
  | .incident => "I\x27m sorry to hear that. What you\x27ve described sounds serious and should be properly documented. If you\x27d like to report this, please contact HR or use the company\x27s safety and incident reporting system. Your wellbeing is important, and these matters are handled confidentially. Let\x27s continue when you\x27re ready."

/-- `respondToConcerns`: emit the canned response for the detected concern
kind (generic outside_scope response when the kind is absent). -/
def respondToConcernsNode (s : EState) : EState :=
  match s.categories.bind (fun c => c.concernType) with
  | none => pushAssistant s (getConcernResponse .outside_scope)
  | some ct => pushAssistant s (getConcernResponse ct)

/-- `SIMPLE_EMPATHY`. -/
def SIMPLE_EMPATHY : String := "Thank you for sharing that."

/-- `generateEmpathy`: returns `{}` without a question or response; the
canned acknowledgement in fallback mode; otherwise the generated text
(`text`, an oracle parameter; the catch branch is the instance
`text = SIMPLE_EMPATHY`). -/
def empathyNode (s : EState) (text : String) : EState :=
  match getCurrentQuestion s, truthyOptStr s.translatedResponse with
  | some _, some _ =>
    if s.llmFallback then pushAssistant s SIMPLE_EMPATHY else pushAssistant s text
  | _, _ => s

/-- `generateFollowup`: throws without a question or response; returns `{}`
in fallback mode and on call failure; otherwise increments the follow-up
count, stacks the pending exchange and emits the follow-up question. -/
def generateFollowupNode (s : EState) (fq : String) (callFailed : Bool) : Option EState :=
  match getCurrentQuestion s, truthyOptStr s.translatedResponse with
  | some _, some _ =>
    if s.llmFallback then some s
    else if callFailed then some s
    else
      some { s with
        currentFollowupCount := s.currentFollowupCount + 1
        currentFollowups := s.currentFollowups ++ [⟨fq, "", none⟩]
        messages := s.messages ++ [⟨.assistant, fq⟩] }
  | _, _ => none

/-- `complete`: build the final transcript (concern count, role-tagged
message log with the closing message last, question/answer counts), mark the
interview complete and emit the closing message.  `closing` resolves the
generated-or-canned closing text and `now` the clock. -/
def completeNode (s : EState) (closing now : String) : EState :=
  let fullTranscript :=
    s.messages.map (fun m => TranscriptMessage.mk
      (if m.role == Role.user then Role.user else Role.assistant) m.content now) ++
    [⟨Role.assistant, closing, now⟩]
  { s with
    isComplete := true
    transcript := some
      { interviewType := s.interviewType
        startedAt := jsOrStr s.startedAt now
        completedAt := now
        questionCount := s.questions.length
        questionsAnswered := s.responses.length
        concernsDetected := (s.responses.filter (fun r => r.hadConcerns)).length
        responses := s.responses
        fullTranscript := fullTranscript }
    messages := s.messages ++ [⟨.assistant, closing⟩] }

-- =============================================================================
-- Routers and the state graph (src/agent/graph.ts)
-- =============================================================================

/-- The graph positions: one per node, plus the entry point `start`, the
wait-for-user / terminal position `done` (END), and the absorbing position
`err` reached by a thrown `StateInvariantError`. -/
inductive GNode where
  | start
  | ini
  | askQuestion
  | translateIfNeeded
  | validateFormat
  | reprompt
  | routeByType
  | storeBasicResponse
  | analyzeResponse
  | respondToConcerns
  | storeAssessmentResponse
  | empathyForFollowup
  | empathyForStore
  | generateFollowup
  | complete
  | done
  | err
deriving DecidableEq, Repr

/-- `isHumanMessage` on the tagged message form. -/
def isHumanMessage (m : Msg) : Bool :=
  m.role == Role.user

/-- `routeEntry`: no `startedAt` or a finished interview re-enter
initialization; a trailing user message flows into translation; anything else
defaults to initialization. -/
def routeEntry (s : EState) : GNode :=
  if s.startedAt.isNone then .ini
  else if s.isComplete then .ini
  else
    match s.messages.getLast? with
    | some m => if isHumanMessage m then .translateIfNeeded else .ini
    | none => .ini

/-- `routeAfterValidate`. -/
def routeAfterValidate (s : EState) : GNode :=
  if s.needsReprompt then .reprompt else .routeByType

/-- `routeByQuestionType`: basic questions (and the defensive no-question
case) store directly; assessment questions are analyzed. -/
def routeByQuestionType (s : EState) : GNode :=
  match getCurrentQuestion s with
  | none => .storeBasicResponse
  | some q => if isBasicQuestion q then .storeBasicResponse else .analyzeResponse

/-- `routeAfterAnalysis`: concerns dominate; then a proper response or an
exhausted follow-up budget goes to the store path; else the follow-up path. -/
def routeAfterAnalysis (s : EState) : GNode :=
  if catsHasConcerns s then .respondToConcerns
  else if catsIsProper s || !canAskFollowup s then .empathyForStore
  else .empathyForFollowup

/-- `routeAfterStore`. -/
def routeAfterStore (s : EState) : GNode :=
  if hasMoreQuestions s then .askQuestion else .complete

/-- One engine configuration: the position about to run, and the state. -/
structure EConfig where
  node : GNode
  st : EState
deriving DecidableEq, Repr

/-- The step relation of the compiled graph: each constructor runs one node
(with its oracle parameters: generated text, clock, call success/failure,
injected configuration) and follows the graph edge for the produced state.
`done` waits for the next user message, `err` is absorbing. -/
inductive Step : EConfig → EConfig → Prop where
  | userTurn (s : EState) (m : String) :
      Step ⟨.done, s⟩ ⟨.start, { s with messages := s.messages ++ [⟨Role.user, m⟩] }⟩
  | entry (s : EState) :
      Step ⟨.start, s⟩ ⟨routeEntry s, s⟩
  | initOk (s : EState) (ocfg : Option InterviewConfig) (welcome now : String) (s₂ : EState) :
      initializeNode s ocfg welcome now = some s₂ →
      Step ⟨.ini, s⟩ ⟨.askQuestion, s₂⟩
  | initThrow (s : EState) (ocfg : Option InterviewConfig) (welcome now : String) :
      initializeNode s ocfg welcome now = none →
      Step ⟨.ini, s⟩ ⟨.err, s⟩
  | askOk (s : EState) (qmsg : String) (s₂ : EState) :
      askQuestionNode s qmsg = some s₂ →
      Step ⟨.askQuestion, s⟩ ⟨.done, s₂⟩
  | askThrow (s : EState) (qmsg : String) :
      askQuestionNode s qmsg = none →
      Step ⟨.askQuestion, s⟩ ⟨.err, s⟩
  | translate (s : EState) (tr : String) (callFailed : Bool) :
      Step ⟨.translateIfNeeded, s⟩ ⟨.validateFormat, translateNode s tr callFailed⟩
  | validateOk (s : EState) (s₂ : EState) :
      validateFormatNode s = some s₂ →
      Step ⟨.validateFormat, s⟩ ⟨routeAfterValidate s₂, s₂⟩
  | validateThrow (s : EState) :
      validateFormatNode s = none →
      Step ⟨.validateFormat, s⟩ ⟨.err, s⟩
  | repromptOk (s : EState) (msg : String) (s₂ : EState) :
      repromptNode s msg = some s₂ →
      Step ⟨.reprompt, s⟩ ⟨.done, s₂⟩
  | repromptThrow (s : EState) (msg : String) :
      repromptNode s msg = none →
      Step ⟨.reprompt, s⟩ ⟨.err, s⟩
  | routeByTypePass (s : EState) :
      Step ⟨.routeByType, s⟩ ⟨routeByQuestionType s, s⟩
  | storeBasicOk (s : EState) (ack : String) (s₂ : EState) :
      storeBasicNode s ack = some s₂ →
      Step ⟨.storeBasicResponse, s⟩ ⟨routeAfterStore s₂, s₂⟩
  | storeBasicThrow (s : EState) (ack : String) :
      storeBasicNode s ack = none →
      Step ⟨.storeBasicResponse, s⟩ ⟨.err, s⟩
  | analyze (s : EState) (co po : Except Unit String) :
      Step ⟨.analyzeResponse, s⟩ ⟨routeAfterAnalysis (analyzeNode s co po), analyzeNode s co po⟩
  | analyzeJoinFail (s : EState) :
      (getCurrentQuestion s).isSome = true →
      s.llmFallback = false →
      Step ⟨.analyzeResponse, s⟩
        ⟨routeAfterAnalysis (analyzeJoinFailNode s), analyzeJoinFailNode s⟩
  | respondConcerns (s : EState) :
      Step ⟨.respondToConcerns, s⟩ ⟨.storeAssessmentResponse, respondToConcernsNode s⟩
  | empathyFU (s : EState) (text : String) :
      Step ⟨.empathyForFollowup, s⟩ ⟨.generateFollowup, empathyNode s text⟩
  | empathyStore (s : EState) (text : String) :
      Step ⟨.empathyForStore, s⟩ ⟨.storeAssessmentResponse, empathyNode s text⟩
  | followupOk (s : EState) (fq : String) (callFailed : Bool) (s₂ : EState) :
      generateFollowupNode s fq callFailed = some s₂ →
      Step ⟨.generateFollowup, s⟩ ⟨.done, s₂⟩
  | followupThrow (s : EState) (fq : String) (callFailed : Bool) :
      generateFollowupNode s fq callFailed = none →
      Step ⟨.generateFollowup, s⟩ ⟨.err, s⟩
  | storeAssessOk (s : EState) (s₂ : EState) :
      storeAssessmentNode s = some s₂ →
      Step ⟨.storeAssessmentResponse, s⟩ ⟨routeAfterStore s₂, s₂⟩
  | storeAssessThrow (s : EState) :
      storeAssessmentNode s = none →
      Step ⟨.storeAssessmentResponse, s⟩ ⟨.err, s⟩
  | completeRun (s : EState) (closing now : String) :
      Step ⟨.complete, s⟩ ⟨.done, completeNode s closing now⟩

/-- The fresh state at the first programmatic invocation: every channel at its
default.  (`interviewType` carries no default in the source; its placeholder
value is unread before `initialize` overwrites it, because the state-field
config path is guarded by the emptiness of `questions`.) -/
def freshState : EState :=
  { interviewType := .screener
    questions := []
    llmFallback := false
    currentQuestionIndex := 0
    currentFollowupCount := 0
    rawResponse := none
    translatedResponse := none
    wasTranslated := false
    categories := none
    needsReprompt := false
    repromptReason := none
    responses := []
    currentFollowups := []
    messages := []
    startedAt := none
    isComplete := false
    transcript := none }

/-- The initial configuration of every run. -/
def initConfig : EConfig :=
  ⟨.start, freshState⟩

/-- Engine configurations reachable from a freshly initialized run. -/
def Reachable (c : EConfig) : Prop :=
  Relation.ReflTransGen Step initConfig c

-- =============================================================================
-- The inductive invariant
-- =============================================================================

/-- The inductive invariant of the engine: the follow-up count is bounded by
the ceiling of `max_followups` of the current question; the follow-up branch is
entered only while another follow-up is allowed; a completed interview only
ever re-enters the defensive initialize/ask path; every configured
`max_followups` is non-negative; `complete` runs only with the catalog
exhausted; and `startedAt` is set everywhere past initialization. -/
structure InvS (c : EConfig) : Prop where
  bound : ∀ q, getCurrentQuestion c.st = some q →
    (c.st.currentFollowupCount : ℤ) ≤ ⌈q.max_followups⌉
  strict : c.node = GNode.empathyForFollowup ∨ c.node = GNode.generateFollowup →
    canAskFollowup c.st = true
  comp : c.st.isComplete = true →
    (c.node = GNode.start ∨ c.node = GNode.done ∨ c.node = GNode.ini ∨
      c.node = GNode.askQuestion ∨ c.node = GNode.err) ∧
    c.st.questions ≠ [] ∧ c.st.startedAt.isSome = true ∧
    c.st.questions.length ≤ c.st.currentQuestionIndex
  qmax : ∀ q ∈ c.st.questions, 0 ≤ q.max_followups
  precomplete : c.node = GNode.complete →
    c.st.questions ≠ [] ∧ c.st.questions.length ≤ c.st.currentQuestionIndex
  started : c.node ≠ GNode.start → c.node ≠ GNode.ini → c.node ≠ GNode.err →
    c.st.startedAt.isSome = true

/-- Concrete single_select question of the whitespace-validation witness. -/
def c10Question : Question :=
  { type := .single_select, text := "Pick one", max_followups := 0,
    options := some ["Low", "High"] }

/-- Concrete state of the whitespace-validation witness: the engine holds a
whitespace-only response for a single_select question. -/
def c10State : EState :=
  { freshState with
      questions := [c10Question]
      translatedResponse := some " "
      startedAt := some "t0" }

/-- The JS number 0.5 as an explicit reduced fraction (written as a structure
literal so that it evaluates inside `decide`). -/
def halfQ : ℚ := ⟨1, 2, by norm_num, Nat.coprime_one_left 2⟩

/-- A configuration whose single question carries the fractional
max_followups 0.5 — accepted by the validator, which checks only for a
non-negative number. -/
def configCex : JValue :=
  .jobj [("interview_type", .jstr "screener"),
    ("questions", .jarr [.jobj [("type", .jstr "yes_no"), ("text", .jstr "Q"),
      ("max_followups", .jnum halfQ)]])]

/-- A well-formed configuration value (used to witness the validator
theorems). -/
def goodConfig : JValue :=
  .jobj [("interview_type", .jstr "exit"),
    ("questions", .jarr [.jobj [("type", .jstr "long_answer"), ("text", .jstr "Tell me"),
      ("max_followups", .jnum 2)]])]

/-- One-question catalog used by the reachability witnesses. -/
def w1Question : Question :=
  { type := .long_answer, text := "Q1", max_followups := 2 }

/-- Witness configuration. -/
def w1Config : InterviewConfig :=
  { interview_type := .screener, questions := [w1Question] }

/-- Witness state after initialization. -/
def w1s1 : EState :=
  (initializeNode freshState (some w1Config) "welcome" "t0").getD freshState

/-- Witness state after the first question is asked. -/
def w1s2 : EState :=
  (askQuestionNode w1s1 "q1").getD w1s1

/-- Catalog with the fractional follow-up budget 0.5, accepted by the
validator. -/
def cxQuestion : Question :=
  { type := .long_answer, text := "Qx", max_followups := halfQ }

/-- Counterexample configuration. -/
def cxConfig : InterviewConfig :=
  { interview_type := .screener, questions := [cxQuestion] }

/-- Counterexample trace state after initialization. -/
def cx1 : EState :=
  (initializeNode freshState (some cxConfig) "w" "t0").getD freshState

/-- ... after asking the question. -/
def cx2 : EState :=
  (askQuestionNode cx1 "q").getD cx1

/-- ... after the user answers. -/
def cx3 : EState :=
  { cx2 with messages := cx2.messages ++ [⟨Role.user, "my answer"⟩] }

/-- ... after translation (call failed, response kept verbatim). -/
def cx4 : EState :=
  translateNode cx3 "my answer" true

/-- ... after format validation. -/
def cx5 : EState :=
  (validateFormatNode cx4).getD cx4

/-- ... after analysis: the concern check threw, the completeness check
reported an incomplete answer. -/
def cx6 : EState :=
  analyzeNode cx5 (Except.error ()) (Except.ok "incomplete")

/-- ... after the empathy acknowledgement. -/
def cx7 : EState :=
  empathyNode cx6 "I see"

/-- ... after the follow-up is generated: the follow-up count is now 1,
above the question budget 0.5. -/
def cx8 : EState :=
  (generateFollowupNode cx7 "Tell me more" false).getD cx7

/-- Witness analysis outcome: the concern check reported EEOC content. -/
def c2a : EState :=
  analyzeNode cx5 (Except.ok "eeoc") (Except.ok "complete")

/-- The frame conditions of the two store operations (claim C8): exactly one
response is appended, at the pre-store index; the index advances by one; the
configuration fields survive; every per-turn scratch channel is cleared. -/
def storeFrame (s s₂ : EState) : Prop :=
  (∃ resp, s₂.responses = s.responses ++ [resp] ∧
    resp.questionIndex = s.currentQuestionIndex) ∧
  s₂.currentQuestionIndex = s.currentQuestionIndex + 1 ∧
  s₂.questions = s.questions ∧
  s₂.interviewType = s.interviewType ∧
  s₂.llmFallback = s.llmFallback ∧
  s₂.startedAt = s.startedAt ∧
  s₂.rawResponse = none ∧
  s₂.translatedResponse = none ∧
  s₂.wasTranslated = false ∧
  s₂.categories = none ∧
  s₂.currentFollowups = [] ∧
  s₂.currentFollowupCount = 0

/-- Basic one-question catalog (max_followups = 0) of the completion
witness. -/
def c9Question : Question :=
  { type := .yes_no, text := "Ready?", max_followups := 0 }

/-- Completion witness configuration. -/
def c9Config : InterviewConfig :=
  { interview_type := .screener, questions := [c9Question] }

/-- Completion witness trace: after initialization. -/
def c9s1 : EState :=
  (initializeNode freshState (some c9Config) "w" "t0").getD freshState

/-- ... after asking the question. -/
def c9s2 : EState :=
  (askQuestionNode c9s1 "q").getD c9s1

/-- ... after the user answers yep. -/
def c9s3 : EState :=
  { c9s2 with messages := c9s2.messages ++ [⟨Role.user, "yep"⟩] }

/-- ... after translation. -/
def c9s4 : EState :=
  translateNode c9s3 "yep" true

/-- ... after format validation (normalized to yes). -/
def c9s5 : EState :=
  (validateFormatNode c9s4).getD c9s4

/-- ... after the basic store: the catalog is exhausted, so the router sends
the engine to the completion step. -/
def c9s6 : EState :=
  (storeBasicNode c9s5 "Got it.").getD c9s5

-- =============================================================================
-- Theorems
-- =============================================================================

-- Round-trip lemmas: parsing the decimal representation of `n` recovers `n`.

theorem natDigitsRevFuel_fuel_free (n : Nat) :
    ∀ f₁ f₂ : Nat, n ≤ f₁ → n ≤ f₂ → natDigitsRevFuel f₁ n = natDigitsRevFuel f₂ n := by
  induction n using Nat.strong_induction_on with
  | _ n ih =>
    intro f₁ f₂ h₁ h₂
    match f₁, f₂ with
    | 0, 0 => rfl
    | 0, g + 1 =>
      have hn : n = 0 := Nat.le_zero.mp h₁
      simp [natDigitsRevFuel, hn]
    | g + 1, 0 =>
      have hn : n = 0 := Nat.le_zero.mp h₂
      simp [natDigitsRevFuel, hn]
    | g₁ + 1, g₂ + 1 =>
      by_cases hn : n = 0
      · simp [natDigitsRevFuel, hn]
      · have hd : n / 10 < n := Nat.div_lt_self (Nat.pos_of_ne_zero hn) (by decide)
        simp only [natDigitsRevFuel, hn, if_false]
        rw [ih (n / 10) hd g₁ g₂ (by omega) (by omega)]

theorem natDigitsRev_unfold (n : Nat) :
    natDigitsRev n = if n = 0 then [] else Nat.digitChar (n % 10) :: natDigitsRev (n / 10) := by
  by_cases hn : n = 0
  · subst hn; rfl
  · obtain ⟨m, rfl⟩ : ∃ m, n = m + 1 := ⟨n - 1, by omega⟩
    simp only [natDigitsRev, natDigitsRevFuel, hn, if_false]
    rw [natDigitsRevFuel_fuel_free ((m + 1) / 10) m ((m + 1) / 10) (by omega) (Nat.le_refl _)]

theorem digitChar_toNat {d : Nat} (h : d < 10) : (Nat.digitChar d).toNat = 48 + d := by
  interval_cases d <;> decide

theorem digitChar_isDigit {d : Nat} (h : d < 10) : (Nat.digitChar d).isDigit = true := by
  interval_cases d <;> decide

theorem natDigitsRev_all_digits (n : Nat) :
    ∀ c ∈ natDigitsRev n, c.isDigit = true := by
  induction n using Nat.strong_induction_on with
  | _ n ih =>
    intro c hc
    rw [natDigitsRev_unfold] at hc
    by_cases hn : n = 0
    · simp [hn] at hc
    · simp only [hn, if_false, List.mem_cons] at hc
      rcases hc with rfl | hc
      · exact digitChar_isDigit (Nat.mod_lt _ (by decide))
      · exact ih (n / 10) (Nat.div_lt_self (Nat.pos_of_ne_zero hn) (by decide)) c hc

theorem digitsVal_append (acc : Nat) (l : List Char) (c : Char) :
    digitsVal acc (l ++ [c]) = 10 * digitsVal acc l + (c.toNat - 48) := by
  simp [digitsVal, List.foldl_append]

theorem digitsVal_natDigitsRev (n : Nat) :
    ∀ acc : Nat, digitsVal acc (natDigitsRev n).reverse =
      acc * 10 ^ (natDigitsRev n).length + n := by
  induction n using Nat.strong_induction_on with
  | _ n ih =>
    intro acc
    rw [natDigitsRev_unfold]
    by_cases hn : n = 0
    · simp [hn, digitsVal]
    · have hd : n / 10 < n := Nat.div_lt_self (Nat.pos_of_ne_zero hn) (by decide)
      simp only [hn, if_false, List.reverse_cons, List.length_cons]
      rw [digitsVal_append, ih (n / 10) hd acc,
        digitChar_toNat (Nat.mod_lt _ (by decide))]
      have : 48 + n % 10 - 48 = n % 10 := by omega
      rw [this]
      have hmod : 10 * (n / 10) + n % 10 = n := Nat.div_add_mod n 10
      ring_nf
      omega

theorem takeWhile_all_eq (p : Char → Bool) :
    ∀ l : List Char, (∀ c ∈ l, p c = true) → l.takeWhile p = l
  | [], _ => rfl
  | c :: rest, h => by
    have hc : p c = true := h c (List.mem_cons_self c rest)
    simp only [List.takeWhile, hc]
    exact congrArg (c :: ·) (takeWhile_all_eq p rest (fun x hx => h x (List.mem_cons_of_mem c hx)))

theorem parseLeadingNat_natDigitsRev (n : Nat) (hn : n ≠ 0) :
    parseLeadingNat (natDigitsRev n).reverse = some n := by
  have hall : ∀ c ∈ (natDigitsRev n).reverse, c.isDigit = true := by
    intro c hc
    exact natDigitsRev_all_digits n c (List.mem_reverse.mp hc)
  have hne : (natDigitsRev n).reverse ≠ [] := by
    rw [natDigitsRev_unfold]
    simp [hn]
  unfold parseLeadingNat
  rw [takeWhile_all_eq Char.isDigit _ hall]
  match hrev : (natDigitsRev n).reverse with
  | [] => exact absurd hrev hne
  | c :: rest =>
    have := digitsVal_natDigitsRev n 0
    rw [hrev] at this
    simp only [Nat.zero_mul, Nat.zero_add] at this
    simp [this]

theorem parseIntJS_natRepr (n : Nat) : parseIntJS (natRepr n) = some (n : Int) := by
  by_cases hn : n = 0
  · subst hn; decide
  · unfold natRepr parseIntJS
    simp only [hn, if_false]
    have hall : ∀ c ∈ (natDigitsRev n).reverse, c.isDigit = true := by
      intro c hc
      exact natDigitsRev_all_digits n c (List.mem_reverse.mp hc)
    have hne : (natDigitsRev n).reverse ≠ [] := by
      rw [natDigitsRev_unfold]
      simp [hn]
    match hrev : (natDigitsRev n).reverse with
    | [] => exact absurd hrev hne
    | c :: rest =>
      have hcdig : c.isDigit = true := by
        apply hall; rw [hrev]; exact List.mem_cons_self c rest
      have hcm : c ≠ '-' := by
        intro h; rw [h] at hcdig; exact absurd hcdig (by decide)
      have hcp : c ≠ '+' := by
        intro h; rw [h] at hcdig; exact absurd hcdig (by decide)
      have hparse := parseLeadingNat_natDigitsRev n hn
      rw [hrev] at hparse
      simp [String.mk, parseIntChars, hcm, hcp, hparse]

theorem parseIntJS_intRepr (n : Int) : parseIntJS (intRepr n) = some n := by
  by_cases hneg : n < 0
  · have habs : n.natAbs ≠ 0 := by omega
    have hcast : -((n.natAbs : Nat) : Int) = n := by omega
    unfold intRepr parseIntJS
    simp only [hneg, if_true]
    simp [String.mk, parseIntChars, parseLeadingNat_natDigitsRev n.natAbs habs, hcast,
      abs_of_neg hneg]
  · have hcast : ((n.toNat : Nat) : Int) = n := by omega
    unfold intRepr
    simp only [hneg, if_false]
    rw [parseIntJS_natRepr, hcast]

theorem truthyOptStr_of_all_ne (l : List String) (p : String → Bool)
    (h : ∀ o ∈ l, o ≠ "") : truthyOptStr (l.find? p) = l.find? p := by
  match hf : l.find? p with
  | none => rfl
  | some x =>
    have hx : x ∈ l := List.mem_of_find?_eq_some hf
    simp [truthyOptStr, h x hx]

-- =============================================================================
-- Router and node facts
-- =============================================================================

theorem getCurrentQuestion_mem (s : EState) (q : Question)
    (h : getCurrentQuestion s = some q) :
    q ∈ s.questions ∧ s.currentQuestionIndex < s.questions.length := by
  unfold getCurrentQuestion at h
  split at h
  · exact absurd h (by simp)
  · exact ⟨List.get?_mem h, by omega⟩

theorem getCurrentQuestion_congr (s s₂ : EState)
    (hq : s₂.questions = s.questions)
    (hi : s₂.currentQuestionIndex = s.currentQuestionIndex) :
    getCurrentQuestion s₂ = getCurrentQuestion s := by
  unfold getCurrentQuestion
  rw [hq, hi]

theorem canAskFollowup_spec (s : EState) (h : canAskFollowup s = true) :
    ∃ q, getCurrentQuestion s = some q ∧ (s.currentFollowupCount : ℚ) < q.max_followups := by
  unfold canAskFollowup at h
  split at h
  · exact absurd h (by simp)
  · next q hq => exact ⟨q, hq, of_decide_eq_true h⟩

theorem canAskFollowup_congr (s s₂ : EState)
    (hq : s₂.questions = s.questions)
    (hi : s₂.currentQuestionIndex = s.currentQuestionIndex)
    (hc : s₂.currentFollowupCount = s.currentFollowupCount) :
    canAskFollowup s₂ = canAskFollowup s := by
  unfold canAskFollowup
  rw [getCurrentQuestion_congr s s₂ hq hi, hc]

theorem configOkB_max (cfg : InterviewConfig) (h : configOkB cfg = true) :
    ∀ q ∈ cfg.questions, 0 ≤ q.max_followups := by
  intro q hq
  unfold configOkB at h
  rw [Bool.and_eq_true, List.all_eq_true] at h
  have := h.2 q hq
  rw [Bool.and_eq_true, Bool.and_eq_true] at this
  exact of_decide_eq_true this.1.2

theorem routeEntry_cases (s : EState) :
    routeEntry s = .ini ∨ (routeEntry s = .translateIfNeeded ∧ s.startedAt.isSome = true) := by
  unfold routeEntry
  split
  · next h => left; rfl
  · next h =>
    have hs : s.startedAt.isSome = true := by
      cases hx : s.startedAt
      · rw [hx] at h; exact absurd rfl h
      · rfl
    split
    · left; rfl
    · split
      · split
        · right; exact ⟨rfl, hs⟩
        · left; rfl
      · left; rfl

theorem routeEntry_complete (s : EState) (h : s.isComplete = true)
    (hs : s.startedAt.isSome = true) : routeEntry s = .ini := by
  unfold routeEntry
  have : ¬s.startedAt.isNone := by
    cases hx : s.startedAt
    · rw [hx] at hs; exact absurd hs (by simp)
    · simp
  rw [if_neg this, if_pos h]

theorem routeAfterValidate_cases (s : EState) :
    routeAfterValidate s = .reprompt ∨ routeAfterValidate s = .routeByType := by
  unfold routeAfterValidate
  split
  · left; rfl
  · right; rfl

theorem routeByQuestionType_cases (s : EState) :
    routeByQuestionType s = .storeBasicResponse ∨ routeByQuestionType s = .analyzeResponse := by
  unfold routeByQuestionType
  split
  · left; rfl
  · split
    · left; rfl
    · right; rfl

theorem routeAfterAnalysis_cases (s : EState) :
    routeAfterAnalysis s = .respondToConcerns ∨ routeAfterAnalysis s = .empathyForStore ∨
      routeAfterAnalysis s = .empathyForFollowup := by
  unfold routeAfterAnalysis
  split
  · left; rfl
  · split
    · right; left; rfl
    · right; right; rfl

theorem routeAfterAnalysis_followup (s : EState)
    (h : routeAfterAnalysis s = .empathyForFollowup) : canAskFollowup s = true := by
  unfold routeAfterAnalysis at h
  split at h
  · exact absurd h (by simp)
  · split at h
    · exact absurd h (by simp)
    · next hcond =>
      rw [Bool.or_eq_true, not_or] at hcond
      have := hcond.2
      cases hx : canAskFollowup s
      · rw [hx] at this; exact absurd rfl this
      · rfl

theorem routeAfterStore_cases (s : EState) :
    (routeAfterStore s = .askQuestion ∧ s.currentQuestionIndex < s.questions.length) ∨
      (routeAfterStore s = .complete ∧ s.questions.length ≤ s.currentQuestionIndex) := by
  unfold routeAfterStore hasMoreQuestions
  split
  · next h => exact Or.inl ⟨rfl, by exact_mod_cast of_decide_eq_true h⟩
  · next h =>
    right
    refine ⟨rfl, ?_⟩
    by_cases hlt : s.currentQuestionIndex < s.questions.length
    · exact absurd (by exact_mod_cast decide_eq_true hlt) h
    · omega

theorem translateNode_fields (s : EState) (tr : String) (f : Bool) :
    (translateNode s tr f).questions = s.questions ∧
    (translateNode s tr f).currentQuestionIndex = s.currentQuestionIndex ∧
    (translateNode s tr f).currentFollowupCount = s.currentFollowupCount ∧
    (translateNode s tr f).isComplete = s.isComplete ∧
    (translateNode s tr f).startedAt = s.startedAt := by
  unfold translateNode
  split <;> (try split) <;> simp

theorem validateFormatNode_fields (s s₂ : EState) (h : validateFormatNode s = some s₂) :
    s₂.questions = s.questions ∧
    s₂.currentQuestionIndex = s.currentQuestionIndex ∧
    s₂.currentFollowupCount = s.currentFollowupCount ∧
    s₂.isComplete = s.isComplete ∧
    s₂.startedAt = s.startedAt := by
  unfold validateFormatNode at h
  split at h
  · exact absurd h (by simp)
  · split at h
    · simp only [Option.some.injEq] at h; subst h; simp
    · dsimp only at h
      split at h <;> (simp only [Option.some.injEq] at h; subst h; simp)

theorem repromptNode_fields (s s₂ : EState) (msg : String) (h : repromptNode s msg = some s₂) :
    s₂.questions = s.questions ∧
    s₂.currentQuestionIndex = s.currentQuestionIndex ∧
    s₂.currentFollowupCount = s.currentFollowupCount ∧
    s₂.isComplete = s.isComplete ∧
    s₂.startedAt = s.startedAt := by
  unfold repromptNode at h
  split at h
  · exact absurd h (by simp)
  · simp only [Option.some.injEq] at h; subst h; simp

theorem askQuestionNode_facts (s s₂ : EState) (qmsg : String)
    (h : askQuestionNode s qmsg = some s₂) :
    s₂.questions = s.questions ∧
    s₂.currentQuestionIndex = s.currentQuestionIndex ∧
    s₂.currentFollowupCount = 0 ∧
    s₂.isComplete = s.isComplete ∧
    s₂.startedAt = s.startedAt := by
  unfold askQuestionNode at h
  split at h
  · exact absurd h (by simp)
  · simp only [Option.some.injEq] at h; subst h; simp

theorem analyzeNode_fields (s : EState) (co po : Except Unit String) :
    (analyzeNode s co po).questions = s.questions ∧
    (analyzeNode s co po).currentQuestionIndex = s.currentQuestionIndex ∧
    (analyzeNode s co po).currentFollowupCount = s.currentFollowupCount ∧
    (analyzeNode s co po).isComplete = s.isComplete ∧
    (analyzeNode s co po).startedAt = s.startedAt := by
  unfold analyzeNode
  split <;> (try split) <;> simp

theorem analyzeJoinFailNode_fields (s : EState) :
    (analyzeJoinFailNode s).questions = s.questions ∧
    (analyzeJoinFailNode s).currentQuestionIndex = s.currentQuestionIndex ∧
    (analyzeJoinFailNode s).currentFollowupCount = s.currentFollowupCount ∧
    (analyzeJoinFailNode s).isComplete = s.isComplete ∧
    (analyzeJoinFailNode s).startedAt = s.startedAt := by
  unfold analyzeJoinFailNode
  simp

theorem respondToConcernsNode_fields (s : EState) :
    (respondToConcernsNode s).questions = s.questions ∧
    (respondToConcernsNode s).currentQuestionIndex = s.currentQuestionIndex ∧
    (respondToConcernsNode s).currentFollowupCount = s.currentFollowupCount ∧
    (respondToConcernsNode s).isComplete = s.isComplete ∧
    (respondToConcernsNode s).startedAt = s.startedAt := by
  unfold respondToConcernsNode pushAssistant
  split <;> simp

theorem empathyNode_fields (s : EState) (text : String) :
    (empathyNode s text).questions = s.questions ∧
    (empathyNode s text).currentQuestionIndex = s.currentQuestionIndex ∧
    (empathyNode s text).currentFollowupCount = s.currentFollowupCount ∧
    (empathyNode s text).isComplete = s.isComplete ∧
    (empathyNode s text).startedAt = s.startedAt := by
  unfold empathyNode pushAssistant
  split <;> (try split) <;> simp

theorem storeBasicNode_facts (s s₂ : EState) (ack : String)
    (h : storeBasicNode s ack = some s₂) :
    s₂.questions = s.questions ∧
    s₂.currentQuestionIndex = s.currentQuestionIndex + 1 ∧
    s₂.currentFollowupCount = 0 ∧
    s₂.isComplete = s.isComplete ∧
    s₂.startedAt = s.startedAt ∧
    s.currentQuestionIndex < s.questions.length := by
  unfold storeBasicNode at h
  split at h
  · exact absurd h (by simp)
  · next q hq =>
    have hmem := getCurrentQuestion_mem s q hq
    simp only [Option.some.injEq] at h; subst h
    exact ⟨rfl, rfl, rfl, rfl, rfl, hmem.2⟩

theorem storeAssessmentNode_facts (s s₂ : EState)
    (h : storeAssessmentNode s = some s₂) :
    s₂.questions = s.questions ∧
    s₂.currentQuestionIndex = s.currentQuestionIndex + 1 ∧
    s₂.currentFollowupCount = 0 ∧
    s₂.isComplete = s.isComplete ∧
    s₂.startedAt = s.startedAt ∧
    s.currentQuestionIndex < s.questions.length := by
  unfold storeAssessmentNode at h
  split at h
  · exact absurd h (by simp)
  · next q hq =>
    have hmem := getCurrentQuestion_mem s q hq
    simp only [Option.some.injEq] at h; subst h
    exact ⟨rfl, rfl, rfl, rfl, rfl, hmem.2⟩

theorem generateFollowupNode_facts (s s₂ : EState) (fq : String) (f : Bool)
    (h : generateFollowupNode s fq f = some s₂) :
    s₂.questions = s.questions ∧
    s₂.currentQuestionIndex = s.currentQuestionIndex ∧
    s₂.currentFollowupCount ≤ s.currentFollowupCount + 1 ∧
    s₂.isComplete = s.isComplete ∧
    s₂.startedAt = s.startedAt := by
  unfold generateFollowupNode at h
  split at h
  · split at h <;> (try split at h) <;>
      (simp only [Option.some.injEq] at h; subst h; simp)
  · exact absurd h (by simp)

theorem completeNode_fields (s : EState) (closing now : String) :
    (completeNode s closing now).questions = s.questions ∧
    (completeNode s closing now).currentQuestionIndex = s.currentQuestionIndex ∧
    (completeNode s closing now).currentFollowupCount = s.currentFollowupCount ∧
    (completeNode s closing now).isComplete = true ∧
    (completeNode s closing now).startedAt = s.startedAt := by
  unfold completeNode
  simp

theorem invErr {n : GNode} {s : EState} (h : InvS ⟨n, s⟩) : InvS ⟨GNode.err, s⟩ := by
  refine ⟨h.bound, ?_, ?_, h.qmax, ?_, ?_⟩
  · rintro (hx | hx) <;> exact absurd hx (by simp)
  · intro hic
    obtain ⟨_, hq, hsa, hlen⟩ := h.comp hic
    exact ⟨Or.inr (Or.inr (Or.inr (Or.inr rfl))), hq, hsa, hlen⟩
  · intro hx; exact absurd hx (by simp)
  · intro _ _ hx; exact absurd rfl hx

theorem isComplete_false_of_interior {n : GNode} {s : EState} (h : InvS ⟨n, s⟩)
    (h1 : n ≠ GNode.start) (h2 : n ≠ GNode.done) (h3 : n ≠ GNode.ini)
    (h4 : n ≠ GNode.askQuestion) (h5 : n ≠ GNode.err) :
    s.isComplete = false := by
  cases hx : s.isComplete
  · rfl
  · rcases (h.comp hx).1 with hh | hh | hh | hh | hh <;> simp_all

/-- Preservation: one engine step keeps the invariant. -/
theorem stepInv {c₁ c₂ : EConfig} (hs : Step c₁ c₂) (h : InvS c₁) : InvS c₂ := by
  cases hs with
  | userTurn s m =>
    refine ⟨fun q hq => h.bound q hq, ?_, ?_, h.qmax, ?_, ?_⟩
    · rintro (hx | hx) <;> exact absurd hx (by simp)
    · intro hic
      obtain ⟨_, hq, hsa, hlen⟩ := h.comp hic
      exact ⟨Or.inl rfl, hq, hsa, hlen⟩
    · intro hx; exact absurd hx (by simp)
    · intro h1 _ _; exact absurd rfl h1
  | entry s =>
    refine ⟨h.bound, ?_, ?_, h.qmax, ?_, ?_⟩
    · rintro (hx | hx) <;>
        (rcases routeEntry_cases s with hh | ⟨hh, _⟩ <;> rw [hh] at hx <;> exact absurd hx (by simp))
    · intro hic
      obtain ⟨_, hq, hsa, hlen⟩ := h.comp hic
      refine ⟨?_, hq, hsa, hlen⟩
      rw [routeEntry_complete s hic hsa]
      exact Or.inr (Or.inr (Or.inl rfl))
    · intro hx
      rcases routeEntry_cases s with hh | ⟨hh, _⟩ <;> rw [hh] at hx <;> exact absurd hx (by simp)
    · intro _ h2 _
      rcases routeEntry_cases s with hh | ⟨hh, hsa⟩
      · exact absurd hh h2
      · exact hsa
  | initOk s ocfg welcome now s₂ hnode =>
    unfold initializeNode at hnode
    split at hnode
    · next hcond =>
      simp only [Option.some.injEq] at hnode
      subst hnode
      refine ⟨h.bound, ?_, ?_, h.qmax, ?_, ?_⟩
      · rintro (hx | hx) <;> exact absurd hx (by simp)
      · intro hic
        obtain ⟨_, hq, hsa, hlen⟩ := h.comp hic
        exact ⟨Or.inr (Or.inr (Or.inr (Or.inl rfl))), hq, hsa, hlen⟩
      · intro hx; exact absurd hx (by simp)
      · intro _ _ _; exact hcond.2
    · cases hoc : ocfg.orElse (fun _ => stateCfgOf s) with
      | none => rw [hoc] at hnode; exact absurd hnode (by simp)
      | some cfg =>
        rw [hoc] at hnode
        dsimp only at hnode
        split at hnode
        · next hok =>
          simp only [Option.some.injEq] at hnode
          subst hnode
          refine ⟨?_, ?_, ?_, ?_, ?_, ?_⟩
          · intro q hq
            have hm := getCurrentQuestion_mem _ q hq
            simpa using Int.ceil_nonneg (configOkB_max cfg hok q hm.1)
          · rintro (hx | hx) <;> exact absurd hx (by simp)
          · intro hic; simp at hic
          · intro q hq; exact configOkB_max cfg hok q hq
          · intro hx; exact absurd hx (by simp)
          · intro _ _ _; simp
        · exact absurd hnode (by simp)
  | initThrow s ocfg welcome now hnode => exact invErr h
  | askOk s qmsg s₂ hnode =>
    obtain ⟨f1, f2, f3, f4, f5⟩ := askQuestionNode_facts s s₂ qmsg hnode
    refine ⟨?_, ?_, ?_, ?_, ?_, ?_⟩
    · intro q hq
      rw [getCurrentQuestion_congr s s₂ f1 f2] at hq
      rw [f3]
      simpa using Int.ceil_nonneg (h.qmax q (getCurrentQuestion_mem s q hq).1)
    · rintro (hx | hx) <;> exact absurd hx (by simp)
    · intro hic
      rw [f4] at hic
      obtain ⟨_, hq, hsa, hlen⟩ := h.comp hic
      exact ⟨Or.inr (Or.inl rfl), by rw [f1]; exact hq, by rw [f5]; exact hsa,
        by rw [f1, f2]; exact hlen⟩
    · intro q hq; rw [f1] at hq; exact h.qmax q hq
    · intro hx; exact absurd hx (by simp)
    · intro _ _ _; rw [f5]; exact h.started (by simp) (by simp) (by simp)
  | askThrow s qmsg hnode => exact invErr h
  | translate s tr f =>
    obtain ⟨f1, f2, f3, f4, f5⟩ := translateNode_fields s tr f
    have hic0 : s.isComplete = false :=
      isComplete_false_of_interior h (by simp) (by simp) (by simp) (by simp) (by simp)
    refine ⟨?_, ?_, ?_, ?_, ?_, ?_⟩
    · intro q hq
      rw [getCurrentQuestion_congr s _ f1 f2] at hq
      rw [f3]
      exact h.bound q hq
    · rintro (hx | hx) <;> exact absurd hx (by simp)
    · intro hic; rw [f4, hic0] at hic; simp at hic
    · intro q hq; rw [f1] at hq; exact h.qmax q hq
    · intro hx; exact absurd hx (by simp)
    · intro _ _ _; rw [f5]; exact h.started (by simp) (by simp) (by simp)
  | validateOk s s₂ hnode =>
    obtain ⟨f1, f2, f3, f4, f5⟩ := validateFormatNode_fields s s₂ hnode
    have hic0 : s.isComplete = false :=
      isComplete_false_of_interior h (by simp) (by simp) (by simp) (by simp) (by simp)
    refine ⟨?_, ?_, ?_, ?_, ?_, ?_⟩
    · intro q hq
      rw [getCurrentQuestion_congr s s₂ f1 f2] at hq
      rw [f3]
      exact h.bound q hq
    · rintro (hx | hx) <;>
        (rcases routeAfterValidate_cases s₂ with hh | hh <;> rw [hh] at hx <;>
          exact absurd hx (by simp))
    · intro hic; rw [f4, hic0] at hic; simp at hic
    · intro q hq; rw [f1] at hq; exact h.qmax q hq
    · intro hx
      rcases routeAfterValidate_cases s₂ with hh | hh <;> rw [hh] at hx <;>
        exact absurd hx (by simp)
    · intro _ _ _; rw [f5]; exact h.started (by simp) (by simp) (by simp)
  | validateThrow s hnode => exact invErr h
  | repromptOk s msg s₂ hnode =>
    obtain ⟨f1, f2, f3, f4, f5⟩ := repromptNode_fields s s₂ msg hnode
    have hic0 : s.isComplete = false :=
      isComplete_false_of_interior h (by simp) (by simp) (by simp) (by simp) (by simp)
    refine ⟨?_, ?_, ?_, ?_, ?_, ?_⟩
    · intro q hq
      rw [getCurrentQuestion_congr s s₂ f1 f2] at hq
      rw [f3]
      exact h.bound q hq
    · rintro (hx | hx) <;> exact absurd hx (by simp)
    · intro hic; rw [f4, hic0] at hic; simp at hic
    · intro q hq; rw [f1] at hq; exact h.qmax q hq
    · intro hx; exact absurd hx (by simp)
    · intro _ _ _; rw [f5]; exact h.started (by simp) (by simp) (by simp)
  | repromptThrow s msg hnode => exact invErr h
  | routeByTypePass s =>
    have hic0 : s.isComplete = false :=
      isComplete_false_of_interior h (by simp) (by simp) (by simp) (by simp) (by simp)
    refine ⟨h.bound, ?_, ?_, h.qmax, ?_, ?_⟩
    · rintro (hx | hx) <;>
        (rcases routeByQuestionType_cases s with hh | hh <;> rw [hh] at hx <;>
          exact absurd hx (by simp))
    · intro hic; rw [hic0] at hic; simp at hic
    · intro hx
      rcases routeByQuestionType_cases s with hh | hh <;> rw [hh] at hx <;>
        exact absurd hx (by simp)
    · intro _ _ _; exact h.started (by simp) (by simp) (by simp)
  | storeBasicOk s ack s₂ hnode =>
    obtain ⟨f1, f2, f3, f4, f5, hlt⟩ := storeBasicNode_facts s s₂ ack hnode
    have hic0 : s.isComplete = false :=
      isComplete_false_of_interior h (by simp) (by simp) (by simp) (by simp) (by simp)
    refine ⟨?_, ?_, ?_, ?_, ?_, ?_⟩
    · intro q hq
      rw [f3]
      have hm := (getCurrentQuestion_mem s₂ q hq).1
      rw [f1] at hm
      simpa using Int.ceil_nonneg (h.qmax q hm)
    · rintro (hx | hx) <;>
        (rcases routeAfterStore_cases s₂ with ⟨hh, _⟩ | ⟨hh, _⟩ <;> rw [hh] at hx <;>
          exact absurd hx (by simp))
    · intro hic; rw [f4, hic0] at hic; simp at hic
    · intro q hq; rw [f1] at hq; exact h.qmax q hq
    · intro hx
      rcases routeAfterStore_cases s₂ with ⟨hh, _⟩ | ⟨hh, hlen⟩
      · rw [hh] at hx; exact absurd hx (by simp)
      · refine ⟨?_, hlen⟩
        rw [f1]
        intro hemp
        rw [hemp] at hlt
        simp at hlt
    · intro _ _ _; rw [f5]; exact h.started (by simp) (by simp) (by simp)
  | storeBasicThrow s ack hnode => exact invErr h
  | analyze s co po =>
    obtain ⟨f1, f2, f3, f4, f5⟩ := analyzeNode_fields s co po
    have hic0 : s.isComplete = false :=
      isComplete_false_of_interior h (by simp) (by simp) (by simp) (by simp) (by simp)
    refine ⟨?_, ?_, ?_, ?_, ?_, ?_⟩
    · intro q hq
      rw [getCurrentQuestion_congr s _ f1 f2] at hq
      rw [f3]
      exact h.bound q hq
    · rintro (hx | hx)
      · exact routeAfterAnalysis_followup _ hx
      · rcases routeAfterAnalysis_cases (analyzeNode s co po) with hh | hh | hh <;>
          rw [hh] at hx <;> exact absurd hx (by simp)
    · intro hic; rw [f4, hic0] at hic; simp at hic
    · intro q hq; rw [f1] at hq; exact h.qmax q hq
    · intro hx
      rcases routeAfterAnalysis_cases (analyzeNode s co po) with hh | hh | hh <;>
        rw [hh] at hx <;> exact absurd hx (by simp)
    · intro _ _ _; rw [f5]; exact h.started (by simp) (by simp) (by simp)
  | analyzeJoinFail s hq0 hf0 =>
    obtain ⟨f1, f2, f3, f4, f5⟩ := analyzeJoinFailNode_fields s
    have hic0 : s.isComplete = false :=
      isComplete_false_of_interior h (by simp) (by simp) (by simp) (by simp) (by simp)
    refine ⟨?_, ?_, ?_, ?_, ?_, ?_⟩
    · intro q hq
      rw [getCurrentQuestion_congr s _ f1 f2] at hq
      rw [f3]
      exact h.bound q hq
    · rintro (hx | hx)
      · exact routeAfterAnalysis_followup _ hx
      · rcases routeAfterAnalysis_cases (analyzeJoinFailNode s) with hh | hh | hh <;>
          rw [hh] at hx <;> exact absurd hx (by simp)
    · intro hic; rw [f4, hic0] at hic; simp at hic
    · intro q hq; rw [f1] at hq; exact h.qmax q hq
    · intro hx
      rcases routeAfterAnalysis_cases (analyzeJoinFailNode s) with hh | hh | hh <;>
        rw [hh] at hx <;> exact absurd hx (by simp)
    · intro _ _ _; rw [f5]; exact h.started (by simp) (by simp) (by simp)
  | respondConcerns s =>
    obtain ⟨f1, f2, f3, f4, f5⟩ := respondToConcernsNode_fields s
    have hic0 : s.isComplete = false :=
      isComplete_false_of_interior h (by simp) (by simp) (by simp) (by simp) (by simp)
    refine ⟨?_, ?_, ?_, ?_, ?_, ?_⟩
    · intro q hq
      rw [getCurrentQuestion_congr s _ f1 f2] at hq
      rw [f3]
      exact h.bound q hq
    · rintro (hx | hx) <;> exact absurd hx (by simp)
    · intro hic; rw [f4, hic0] at hic; simp at hic
    · intro q hq; rw [f1] at hq; exact h.qmax q hq
    · intro hx; exact absurd hx (by simp)
    · intro _ _ _; rw [f5]; exact h.started (by simp) (by simp) (by simp)
  | empathyFU s text =>
    obtain ⟨f1, f2, f3, f4, f5⟩ := empathyNode_fields s text
    have hic0 : s.isComplete = false :=
      isComplete_false_of_interior h (by simp) (by simp) (by simp) (by simp) (by simp)
    refine ⟨?_, ?_, ?_, ?_, ?_, ?_⟩
    · intro q hq
      rw [getCurrentQuestion_congr s _ f1 f2] at hq
      rw [f3]
      exact h.bound q hq
    · intro _
      rw [canAskFollowup_congr s _ f1 f2 f3]
      exact h.strict (Or.inl rfl)
    · intro hic; rw [f4, hic0] at hic; simp at hic
    · intro q hq; rw [f1] at hq; exact h.qmax q hq
    · intro hx; exact absurd hx (by simp)
    · intro _ _ _; rw [f5]; exact h.started (by simp) (by simp) (by simp)
  | empathyStore s text =>
    obtain ⟨f1, f2, f3, f4, f5⟩ := empathyNode_fields s text
    have hic0 : s.isComplete = false :=
      isComplete_false_of_interior h (by simp) (by simp) (by simp) (by simp) (by simp)
    refine ⟨?_, ?_, ?_, ?_, ?_, ?_⟩
    · intro q hq
      rw [getCurrentQuestion_congr s _ f1 f2] at hq
      rw [f3]
      exact h.bound q hq
    · rintro (hx | hx) <;> exact absurd hx (by simp)
    · intro hic; rw [f4, hic0] at hic; simp at hic
    · intro q hq; rw [f1] at hq; exact h.qmax q hq
    · intro hx; exact absurd hx (by simp)
    · intro _ _ _; rw [f5]; exact h.started (by simp) (by simp) (by simp)
  | followupOk s fq f s₂ hnode =>
    obtain ⟨f1, f2, f3le, f4, f5⟩ := generateFollowupNode_facts s s₂ fq f hnode
    have hic0 : s.isComplete = false :=
      isComplete_false_of_interior h (by simp) (by simp) (by simp) (by simp) (by simp)
    have hcan : canAskFollowup s = true := h.strict (Or.inr rfl)
    obtain ⟨q0, hq0, hlt0⟩ := canAskFollowup_spec s hcan
    refine ⟨?_, ?_, ?_, ?_, ?_, ?_⟩
    · intro q hq
      rw [getCurrentQuestion_congr s s₂ f1 f2] at hq
      rw [hq0] at hq
      have hqq : q0 = q := Option.some.inj hq
      subst hqq
      have h1 : (s.currentFollowupCount : ℤ) < ⌈q0.max_followups⌉ :=
        Int.lt_ceil.mpr (by exact_mod_cast hlt0)
      show (s₂.currentFollowupCount : ℤ) ≤ ⌈q0.max_followups⌉
      omega
    · rintro (hx | hx) <;> exact absurd hx (by simp)
    · intro hic; rw [f4, hic0] at hic; simp at hic
    · intro q hq; rw [f1] at hq; exact h.qmax q hq
    · intro hx; exact absurd hx (by simp)
    · intro _ _ _; rw [f5]; exact h.started (by simp) (by simp) (by simp)
  | followupThrow s fq f hnode => exact invErr h
  | storeAssessOk s s₂ hnode =>
    obtain ⟨f1, f2, f3, f4, f5, hlt⟩ := storeAssessmentNode_facts s s₂ hnode
    have hic0 : s.isComplete = false :=
      isComplete_false_of_interior h (by simp) (by simp) (by simp) (by simp) (by simp)
    refine ⟨?_, ?_, ?_, ?_, ?_, ?_⟩
    · intro q hq
      rw [f3]
      have hm := (getCurrentQuestion_mem s₂ q hq).1
      rw [f1] at hm
      simpa using Int.ceil_nonneg (h.qmax q hm)
    · rintro (hx | hx) <;>
        (rcases routeAfterStore_cases s₂ with ⟨hh, _⟩ | ⟨hh, _⟩ <;> rw [hh] at hx <;>
          exact absurd hx (by simp))
    · intro hic; rw [f4, hic0] at hic; simp at hic
    · intro q hq; rw [f1] at hq; exact h.qmax q hq
    · intro hx
      rcases routeAfterStore_cases s₂ with ⟨hh, _⟩ | ⟨hh, hlen⟩
      · rw [hh] at hx; exact absurd hx (by simp)
      · refine ⟨?_, hlen⟩
        rw [f1]
        intro hemp
        rw [hemp] at hlt
        simp at hlt
    · intro _ _ _; rw [f5]; exact h.started (by simp) (by simp) (by simp)
  | storeAssessThrow s hnode => exact invErr h
  | completeRun s closing now =>
    obtain ⟨f1, f2, f3, f4, f5⟩ := completeNode_fields s closing now
    have hpre := h.precomplete rfl
    refine ⟨?_, ?_, ?_, ?_, ?_, ?_⟩
    · intro q hq
      rw [getCurrentQuestion_congr s _ f1 f2] at hq
      rw [f3]
      exact h.bound q hq
    · rintro (hx | hx) <;> exact absurd hx (by simp)
    · intro _
      exact ⟨Or.inr (Or.inl rfl), by rw [f1]; exact hpre.1,
        by rw [f5]; exact h.started (by simp) (by simp) (by simp),
        by rw [f1, f2]; exact hpre.2⟩
    · intro q hq; rw [f1] at hq; exact h.qmax q hq
    · intro hx; exact absurd hx (by simp)
    · intro _ _ _; rw [f5]; exact h.started (by simp) (by simp) (by simp)

/-- The invariant holds at the fresh initial configuration. -/
theorem invInit : InvS initConfig := by
  refine ⟨?_, ?_, ?_, ?_, ?_, ?_⟩
  · intro q hq; simp [initConfig, freshState, getCurrentQuestion] at hq
  · rintro (hx | hx) <;> exact absurd hx (by decide)
  · intro hic; simp [initConfig, freshState] at hic
  · intro q hq; simp [initConfig, freshState] at hq
  · intro hx; exact absurd hx (by decide)
  · intro h1 _ _; exact absurd rfl h1

/-- The invariant holds at every reachable configuration. -/
theorem reachable_inv {c : EConfig} (h : Reachable c) : InvS c := by
  induction h with
  | refl => exact invInit
  | tail hsteps hstep ih => exact stepInv hstep ih



-- Claim C6 (number_scale) and C7 (phone_number)

/-- C6: an input whose trimmed text is the decimal representation of the
integer `n` is accepted by `validateNumberScale` iff `1 ≤ n ≤ 10`; when valid
the result is normalized to the canonical decimal string of `n`; an input
that does not parse as a number is invalid. -/
theorem number_scale_decimal_iff (n : Int) (s : String) (h : jsTrim s = intRepr n) :
    ((validateNumberScale s).isValid = true ↔ 1 ≤ n ∧ n ≤ 10) ∧
    (1 ≤ n → n ≤ 10 → validateNumberScale s = ⟨true, some (intRepr n), none⟩) ∧
    (∀ t : String, parseIntJS (jsTrim t) = none → (validateNumberScale t).isValid = false) := by
  have hps : parseIntJS (jsTrim s) = some n := by rw [h]; exact parseIntJS_intRepr n
  refine ⟨?_, ?_, ?_⟩
  · simp only [validateNumberScale, hps]
    by_cases hc : n < 1 ∨ n > 10
    · rw [if_pos hc]
      exact iff_of_false (by simp) (by omega)
    · rw [if_neg hc]
      exact iff_of_true rfl (by omega)
  · intro h1 h2
    have hc : ¬(n < 1 ∨ n > 10) := by omega
    simp only [validateNumberScale, hps, if_neg hc]
  · intro t ht
    simp [validateNumberScale, ht]

/-- Witness for the number-scale theorem at `n = 7`, `s = "7"`. -/
theorem number_scale_decimal_iff_witness :
    jsTrim "7" = intRepr 7 ∧
      ((validateNumberScale "7").isValid = true ↔ 1 ≤ (7 : Int) ∧ (7 : Int) ≤ 10) :=
  ⟨by decide, (number_scale_decimal_iff 7 "7" (by decide)).1⟩

/-- C7: `validatePhoneNumber` accepts exactly the inputs whose stripped digit
count is 10, or 11 with a leading 1, or between 7 and 15 inclusive; the
normalized value is the stripped digit string, with the leading 1 removed
only in the 11-digit leading-1 case; and the documented example
normalizes to 5551234567. -/
theorem phone_number_iff (s : String) :
    ((validatePhoneNumber s).isValid = true ↔
      ((strippedDigits s).length = 10 ∨
        ((strippedDigits s).length = 11 ∧ (strippedDigits s).head? = some '1') ∨
        (7 ≤ (strippedDigits s).length ∧ (strippedDigits s).length ≤ 15))) ∧
    ((validatePhoneNumber s).normalizedValue =
      (if (strippedDigits s).length = 11 ∧ (strippedDigits s).head? = some '1' then
        some (String.mk ((strippedDigits s).drop 1))
      else if (strippedDigits s).length = 10 ∨
          (7 ≤ (strippedDigits s).length ∧ (strippedDigits s).length ≤ 15) then
        some (String.mk (strippedDigits s))
      else none)) ∧
    validatePhoneNumber "+1 (555) 123-4567" = ⟨true, some "5551234567", none⟩ := by
  refine ⟨?_, ?_, by decide⟩
  · unfold validatePhoneNumber
    by_cases h10 : (strippedDigits s).length = 10
    · rw [if_pos h10]
      exact iff_of_true rfl (Or.inl h10)
    · rw [if_neg h10]
      by_cases h11 : (strippedDigits s).length = 11 ∧ (strippedDigits s).head? = some '1'
      · rw [if_pos h11]
        exact iff_of_true rfl (Or.inr (Or.inl h11))
      · rw [if_neg h11]
        by_cases h715 : 7 ≤ (strippedDigits s).length ∧ (strippedDigits s).length ≤ 15
        · rw [if_pos h715]
          exact iff_of_true rfl (Or.inr (Or.inr h715))
        · rw [if_neg h715]
          exact iff_of_false (by simp) (by rintro (hx | hx | hx); exacts [h10 hx, h11 hx, h715 hx])
  · unfold validatePhoneNumber
    by_cases h10 : (strippedDigits s).length = 10
    · have h11 : ¬((strippedDigits s).length = 11 ∧ (strippedDigits s).head? = some '1') := by
        intro hx; omega
      rw [if_pos h10, if_neg h11, if_pos (Or.inl h10)]
    · rw [if_neg h10]
      by_cases h11 : (strippedDigits s).length = 11 ∧ (strippedDigits s).head? = some '1'
      · rw [if_pos h11, if_pos h11]
      · rw [if_neg h11, if_neg h11]
        by_cases h715 : 7 ≤ (strippedDigits s).length ∧ (strippedDigits s).length ≤ 15
        · rw [if_pos h715, if_pos (Or.inr h715)]
        · rw [if_neg h715, if_neg (by rintro (hx | hx); exacts [h10 hx, h715 hx])]

-- Claim C5 (single_select strategy order) and C10 (whitespace responses)

theorem string_data_ext (a b : String) (h : a.data = b.data) : a = b := by
  cases a; cases b; exact congrArg String.mk (by simpa using h)

theorem jsToLower_eq_empty (o : String) (h : jsToLower o = "") : o = "" := by
  have hd := congrArg String.data h
  simp only [jsToLower] at hd
  have hnil : o.data.map Char.toLower = [] := hd
  rw [List.map_eq_nil_iff] at hnil
  exact string_data_ext o "" hnil

theorem truthyFind_all_empty (l : List String) (p : String → Bool)
    (h : ∀ o ∈ l, p o = true → o = "") : truthyOptStr (l.find? p) = none := by
  cases hf : l.find? p with
  | none => rfl
  | some x =>
    have hx : x = "" := h x (List.mem_of_find?_eq_some hf) (List.find?_some hf)
    simp [truthyOptStr, hx]

/-- C5 (amended: every option a non-empty string, so the JS truthiness test
on a found option never discards a match): `validateSingleSelect` returns the
first strategy match of the documented order (a) exact, (b) prefix either
direction, (c) containment, (d) index — and is invalid only when all four
fail; every match is a canonical option text; options `Low`/`Medium`/`High`
normalize the answer `b` to `Medium`. -/
theorem single_select_strategy_order (response : String) (options : List String)
    (_hne : options ≠ []) (hopts : ∀ o ∈ options, o ≠ "") :
    (validateSingleSelect response options =
      (match specFirstMatch response options with
       | some m => ⟨true, some m, none⟩
       | none => singleSelectInvalid options)) ∧
    (∀ o, specFirstMatch response options = some o → o ∈ options) ∧
    validateSingleSelect "b" ["Low", "Medium", "High"] = ⟨true, some "Medium", none⟩ := by
  refine ⟨?_, ?_, by decide⟩
  · unfold validateSingleSelect specFirstMatch specExactMatch specPrefixMatch specContainsMatch
      specIndexMatch
    dsimp only
    rw [truthyOptStr_of_all_ne _ _ hopts, truthyOptStr_of_all_ne _ _ hopts,
      truthyOptStr_of_all_ne _ _ hopts]
    cases options.find? (fun opt => jsToLower opt == jsToLower (jsTrim response)) with
    | some m => rfl
    | none =>
      cases options.find? (fun opt =>
          jsStartsWith (jsToLower opt) (jsToLower (jsTrim response)) ||
          jsStartsWith (jsToLower (jsTrim response)) (jsToLower opt)) with
      | some m => rfl
      | none =>
        cases options.find? (fun opt => jsIncludes (jsToLower (jsTrim response)) (jsToLower opt)) with
        | some m => rfl
        | none =>
          cases parseOptionIndex (jsToLower (jsTrim response)) options.length with
          | some idx =>
            cases options.get? idx with
            | some m => rfl
            | none => rfl
          | none => rfl
  · intro o ho
    unfold specFirstMatch specExactMatch specPrefixMatch specContainsMatch specIndexMatch at ho
    dsimp only at ho
    cases h1 : options.find? (fun opt => jsToLower opt == jsToLower (jsTrim response)) with
    | some x =>
      rw [h1] at ho
      simp only [Option.orElse] at ho
      cases ho
      exact List.mem_of_find?_eq_some h1
    | none =>
      rw [h1] at ho
      simp only [Option.orElse] at ho
      cases h2 : options.find? (fun opt =>
          jsStartsWith (jsToLower opt) (jsToLower (jsTrim response)) ||
          jsStartsWith (jsToLower (jsTrim response)) (jsToLower opt)) with
      | some x =>
        rw [h2] at ho
        simp only [Option.orElse] at ho
        cases ho
        exact List.mem_of_find?_eq_some h2
      | none =>
        rw [h2] at ho
        simp only [Option.orElse] at ho
        cases h3 : options.find? (fun opt =>
            jsIncludes (jsToLower (jsTrim response)) (jsToLower opt)) with
        | some x =>
          rw [h3] at ho
          simp only [Option.orElse] at ho
          cases ho
          exact List.mem_of_find?_eq_some h3
        | none =>
          rw [h3] at ho
          simp only [Option.orElse] at ho
          rcases Option.bind_eq_some.mp ho with ⟨idx, _, hget⟩
          exact List.get?_mem hget

/-- Witness for the single-select theorem at the documented scenario. -/
theorem single_select_strategy_order_witness :
    (["Low", "Medium", "High"] : List String) ≠ [] ∧
    validateSingleSelect "b" ["Low", "Medium", "High"] = ⟨true, some "Medium", none⟩ :=
  ⟨by decide, (single_select_strategy_order "b" ["Low", "Medium", "High"] (by decide)
    (by decide)).2.2⟩

/-- C5 counterexample: with the non-empty options list consisting of the
empty-string option, strategy (a) has an exact match for the empty response,
yet the validator rejects — the found option fails the JS truthiness test, so
the first matching strategy does not win as claimed. -/
theorem single_select_claim_counterexample :
    specExactMatch [""] (jsToLower (jsTrim "")) = some "" ∧
    (["" ] : List String) ≠ [] ∧
    (validateSingleSelect "" [""]).isValid = false := by decide

/-- C10 (amended: the first option is a non-empty string): a non-empty
whitespace-only response is judged valid with the first option as its
normalized value — the empty trimmed response prefix-matches every option
under strategy (b) — and such a response passes the falsy-response guard of
`validateFormat`, which stores the normalized option. -/
theorem whitespace_single_select (r o₀ : String) (rest : List String) (s : EState) (q : Question)
    (hr : r ≠ "") (hrt : jsTrim r = "") (ho : o₀ ≠ "")
    (hq : getCurrentQuestion s = some q)
    (hqt : q.type = QuestionType.single_select)
    (hqo : q.options = some (o₀ :: rest))
    (hresp : s.translatedResponse = some r) :
    validateSingleSelect r (o₀ :: rest) = ⟨true, some o₀, none⟩ ∧
    validateFormatNode s = some { s with
      needsReprompt := false
      repromptReason := none
      translatedResponse := some o₀ } := by
  have htl : jsToLower (jsTrim r) = "" := by rw [hrt]; rfl
  have h1 : validateSingleSelect r (o₀ :: rest) = ⟨true, some o₀, none⟩ := by
    unfold validateSingleSelect
    dsimp only
    rw [htl]
    rw [truthyFind_all_empty (o₀ :: rest) _ (fun o _ hpo => jsToLower_eq_empty o (by
      simpa using eq_of_beq hpo))]
    have hpos : (fun opt => jsStartsWith (jsToLower opt) "" || jsStartsWith "" (jsToLower opt)) o₀
        = true := by
      simp [jsStartsWith, List.isPrefixOf]
    rw [List.find?_cons_of_pos rest hpos]
    simp [truthyOptStr, ho]
  refine ⟨h1, ?_⟩
  have hvr : validateResponse r q = ⟨true, some o₀, none⟩ := by
    unfold validateResponse
    rw [hqt]
    dsimp only
    rw [hqo]
    exact h1
  unfold validateFormatNode
  rw [hq]
  have htr : truthyOptStr s.translatedResponse = some r := by
    rw [hresp]; simp [truthyOptStr, hr]
  rw [htr]
  dsimp only
  rw [hvr]
  simp [jsOrStr, ho]

/-- Witness for the whitespace theorem at a concrete state. -/
theorem whitespace_single_select_witness :
    validateSingleSelect " " ["Low", "High"] = ⟨true, some "Low", none⟩ ∧
    validateFormatNode c10State = some { c10State with
      needsReprompt := false
      repromptReason := none
      translatedResponse := some "Low" } :=
  whitespace_single_select " " "Low" ["High"] c10State c10Question (by decide) (by decide)
    (by decide) (by decide) (by decide) (by decide) (by decide)

/-- C10 counterexample: for the non-empty options list consisting of the
empty-string option, a whitespace-only non-empty response is rejected, not
normalized to the first option. -/
theorem whitespace_claim_counterexample :
    (" " : String) ≠ "" ∧ jsTrim " " = "" ∧ ((["" ] : List String) ≠ []) ∧
    (validateSingleSelect " " [""]).isValid = false := by decide

-- Claim C3 (configuration validator)

theorem isStrLit_eq (v : JValue) (l : String) (h : isStrLit v l = true) : v = .jstr l := by
  cases v <;> simp [isStrLit] at h ⊢
  exact h

theorem isValidTypeV_truthy (v : JValue) (h : isValidTypeV v = true) : truthy v = true := by
  cases v <;> simp [isValidTypeV, questionTypeNames] at h ⊢
  rcases h with rfl | rfl | rfl | rfl | rfl | rfl <;> decide

theorem checkQuestionsImpl_eq_spec (qs : List JValue) : ∀ dIdx,
    checkQuestionsImpl dIdx qs = specQuestionsLoop dIdx qs := by
  induction qs with
  | nil => intro dIdx; rfl
  | cons q rest ih =>
    intro dIdx
    unfold checkQuestionsImpl specQuestionsLoop
    by_cases hnull : isNullish q = true
    · rw [if_pos hnull, if_pos hnull]
    · rw [if_neg hnull, if_neg hnull]
      by_cases h1 : truthy (getF q "type") = true
      · by_cases h2 : isValidTypeV (getF q "type") = true
        · by_cases h3 : truthy (getF q "text") = true
          · by_cases h4 : isStrV (getF q "text") = true
            · by_cases h5 : isNumV (getF q "max_followups") = true
              · by_cases h6 : numNegV (getF q "max_followups") = true
                · simp [specQuestionFirstViolation, List.findSome?, specKindCheck, specTextCheck,
                    specMaxCheck, h1, h2, h3, h4, h5, h6]
                · by_cases h7 : isStrLit (getF q "type") "single_select" = true
                  · by_cases h8 : truthy (getF q "options") = true
                    · by_cases h9 : isArrV (getF q "options") = true
                      · by_cases h10 : arrLenV (getF q "options") = 0
                        · simp [specQuestionFirstViolation, List.findSome?, specKindCheck,
                            specTextCheck, specMaxCheck, specOptionsCheck, h1, h2, h3, h4, h5,
                            h6, h7, h8, h9, h10]
                        · simp [specQuestionFirstViolation, List.findSome?, specKindCheck,
                            specTextCheck, specMaxCheck, specOptionsCheck, h1, h2, h3, h4, h5,
                            h6, h7, h8, h9, h10, ih (dIdx + 1)]
                      · simp [specQuestionFirstViolation, List.findSome?, specKindCheck,
                          specTextCheck, specMaxCheck, specOptionsCheck, h1, h2, h3, h4, h5,
                          h6, h7, h8, h9]
                    · simp [specQuestionFirstViolation, List.findSome?, specKindCheck,
                        specTextCheck, specMaxCheck, specOptionsCheck, h1, h2, h3, h4, h5,
                        h6, h7, h8]
                  · simp [specQuestionFirstViolation, List.findSome?, specKindCheck,
                      specTextCheck, specMaxCheck, specOptionsCheck, h1, h2, h3, h4, h5,
                      h6, h7, ih (dIdx + 1)]
              · simp [specQuestionFirstViolation, List.findSome?, specKindCheck, specTextCheck,
                  specMaxCheck, h1, h2, h3, h4, h5]
            · simp [specQuestionFirstViolation, List.findSome?, specKindCheck, specTextCheck,
                h1, h2, h3, h4]
          · simp [specQuestionFirstViolation, List.findSome?, specKindCheck, specTextCheck,
              h1, h2, h3]
        · simp [specQuestionFirstViolation, List.findSome?, specKindCheck, h1, h2]
      · simp [specQuestionFirstViolation, List.findSome?, specKindCheck, h1]

theorem validateInterviewConfig_eq_spec (v : JValue) :
    validateInterviewConfig v = configSpecChecker v := by
  have htriv : ∀ xs : List JValue, truthy (JValue.jarr xs) = true := fun _ => rfl
  unfold validateInterviewConfig configSpecChecker specHeaderViolation
  by_cases ht : truthy v = true
  · by_cases hob : typeofIsObject v = true
    · by_cases hti : truthy (getF v "interview_type") = true
      · by_cases hs1 : isStrLit (getF v "interview_type") "screener" = true
        · by_cases hqt : truthy (getF v "questions") = true
          · cases hqa : getF v "questions" with
            | jarr qs =>
              by_cases hlen : qs.length = 0
              · simp [List.findSome?, ht, hob, hti, hs1, hqa, hqt, htriv, hlen]
              · simp [List.findSome?, ht, hob, hti, hs1, hqa, hqt, htriv, hlen,
                  checkQuestionsImpl_eq_spec qs 1]
            | jnull => rw [hqa] at hqt; simp [truthy] at hqt
            | jundefined => rw [hqa] at hqt; simp [truthy] at hqt
            | jbool b => rw [hqa] at hqt; simp [List.findSome?, ht, hob, hti, hs1, hqa, hqt]
            | jnum n => rw [hqa] at hqt; simp [List.findSome?, ht, hob, hti, hs1, hqa, hqt]
            | jstr t => rw [hqa] at hqt; simp [List.findSome?, ht, hob, hti, hs1, hqa, hqt]
            | jobj fs => rw [hqa] at hqt; simp [List.findSome?, ht, hob, hti, hs1, hqa, hqt]
          · simp [List.findSome?, ht, hob, hti, hs1, hqt]
        · by_cases hs2 : isStrLit (getF v "interview_type") "exit" = true
          · by_cases hqt : truthy (getF v "questions") = true
            · cases hqa : getF v "questions" with
              | jarr qs =>
                by_cases hlen : qs.length = 0
                · simp [List.findSome?, ht, hob, hti, hs1, hs2, hqa, hqt, htriv, hlen]
                · simp [List.findSome?, ht, hob, hti, hs1, hs2, hqa, hqt, htriv, hlen,
                    checkQuestionsImpl_eq_spec qs 1]
              | jnull => rw [hqa] at hqt; simp [truthy] at hqt
              | jundefined => rw [hqa] at hqt; simp [truthy] at hqt
              | jbool b => rw [hqa] at hqt; simp [List.findSome?, ht, hob, hti, hs1, hs2, hqa, hqt]
              | jnum n => rw [hqa] at hqt; simp [List.findSome?, ht, hob, hti, hs1, hs2, hqa, hqt]
              | jstr t => rw [hqa] at hqt; simp [List.findSome?, ht, hob, hti, hs1, hs2, hqa, hqt]
              | jobj fs => rw [hqa] at hqt; simp [List.findSome?, ht, hob, hti, hs1, hs2, hqa, hqt]
            · simp [List.findSome?, ht, hob, hti, hs1, hs2, hqt]
          · simp [List.findSome?, ht, hob, hti, hs1, hs2]
      · simp [List.findSome?, ht, hob, hti]
    · simp [List.findSome?, ht, hob]
  · simp [List.findSome?, ht]

theorem specQuestionFirstViolation_none_iff (dIdx : Nat) (q : JValue) :
    (specQuestionFirstViolation dIdx q = none ↔ questionOkB q = true) := by
  by_cases h2 : isValidTypeV (getF q "type") = true
  · have h1 : truthy (getF q "type") = true := isValidTypeV_truthy _ h2
    by_cases h3 : truthy (getF q "text") = true
    · by_cases h4 : isStrV (getF q "text") = true
      · by_cases h5 : isNumV (getF q "max_followups") = true
        · by_cases h6 : numNegV (getF q "max_followups") = true
          · simp [specQuestionFirstViolation, List.findSome?, specKindCheck, specTextCheck,
              specMaxCheck, questionOkB, h1, h2, h3, h4, h5, h6]
          · by_cases h7 : isStrLit (getF q "type") "single_select" = true
            · by_cases h8 : truthy (getF q "options") = true
              · by_cases h9 : isArrV (getF q "options") = true
                · by_cases h10 : arrLenV (getF q "options") = 0
                  · simp [specQuestionFirstViolation, List.findSome?, specKindCheck,
                      specTextCheck, specMaxCheck, specOptionsCheck, questionOkB,
                      h1, h2, h3, h4, h5, h6, h7, h8, h9, h10]
                  · simp [specQuestionFirstViolation, List.findSome?, specKindCheck,
                      specTextCheck, specMaxCheck, specOptionsCheck, questionOkB,
                      h1, h2, h3, h4, h5, h6, h7, h8, h9, h10]
                · simp [specQuestionFirstViolation, List.findSome?, specKindCheck,
                    specTextCheck, specMaxCheck, specOptionsCheck, questionOkB,
                    h1, h2, h3, h4, h5, h6, h7, h8, h9]
              · simp [specQuestionFirstViolation, List.findSome?, specKindCheck,
                  specTextCheck, specMaxCheck, specOptionsCheck, questionOkB,
                  h1, h2, h3, h4, h5, h6, h7, h8]
            · simp [specQuestionFirstViolation, List.findSome?, specKindCheck, specTextCheck,
                specMaxCheck, specOptionsCheck, questionOkB, h1, h2, h3, h4, h5, h6, h7]
        · simp [specQuestionFirstViolation, List.findSome?, specKindCheck, specTextCheck,
            specMaxCheck, questionOkB, h1, h2, h3, h4, h5]
      · simp [specQuestionFirstViolation, List.findSome?, specKindCheck, specTextCheck,
          questionOkB, h1, h2, h3, h4]
    · simp [specQuestionFirstViolation, List.findSome?, specKindCheck, specTextCheck,
        questionOkB, h1, h2, h3]
  · by_cases h1 : truthy (getF q "type") = true
    · simp [specQuestionFirstViolation, List.findSome?, specKindCheck, questionOkB, h1, h2]
    · simp [specQuestionFirstViolation, List.findSome?, specKindCheck, questionOkB, h1, h2]

theorem specQuestionsLoop_isValid (qs : List JValue) : ∀ dIdx r,
    specQuestionsLoop dIdx qs = some r → (r.isValid = true ↔ qs.all questionOkB = true) := by
  induction qs with
  | nil =>
    intro dIdx r h
    unfold specQuestionsLoop at h
    simp only [Option.some.injEq] at h
    subst h
    simp
  | cons q rest ih =>
    intro dIdx r h
    unfold specQuestionsLoop at h
    by_cases hnull : isNullish q = true
    · rw [if_pos hnull] at h; exact absurd h (by simp)
    · rw [if_neg hnull] at h
      cases hv : specQuestionFirstViolation dIdx q with
      | some m =>
        rw [hv] at h
        simp only [Option.some.injEq] at h
        subst h
        have hbad : questionOkB q = false := by
          cases hx : questionOkB q
          · rfl
          · rw [(specQuestionFirstViolation_none_iff dIdx q).mpr hx] at hv
            exact absurd hv (by simp)
        simp [hbad]
      | none =>
        rw [hv] at h
        have hqok := (specQuestionFirstViolation_none_iff dIdx q).mp hv
        have := ih (dIdx + 1) r h
        simp [List.all_cons, hqok, this]

theorem amendedConfigOkB_nonobj (v : JValue) (hv : ∀ fs, v ≠ .jobj fs) :
    amendedConfigOkB v = false := by
  cases v with
  | jobj fs => exact absurd rfl (hv fs)
  | jnull => simp [amendedConfigOkB, getF, isStrLit]
  | jundefined => simp [amendedConfigOkB, getF, isStrLit]
  | jbool b => simp [amendedConfigOkB, getF, isStrLit]
  | jnum q => simp [amendedConfigOkB, getF, isStrLit]
  | jstr t => simp [amendedConfigOkB, getF, isStrLit]
  | jarr xs => simp [amendedConfigOkB, getF, isStrLit]

theorem isStrLit_false_of_not_truthy (x : JValue) (l : String) (hl : l ≠ "")
    (h : ¬truthy x = true) : isStrLit x l = false := by
  cases hx : isStrLit x l
  · rfl
  · rw [isStrLit_eq x l hx] at h
    exact absurd (by simp [truthy, hl]) h

/-- C3 (amended: the validator requires a non-negative *number* max_followups,
not a non-negative integer): `validateInterviewConfig` behaves exactly as the
claim-side fail-fast checker — it reports the first violation in the
documented checking order — and, whenever it returns, its verdict is true iff
the interview_type is one of the two literals, questions is a non-empty
array, and every question has a recognized kind, non-empty string text, a
non-negative number max_followups, and non-empty options when
single_select. -/
theorem config_validator_fail_fast (v : JValue) :
    validateInterviewConfig v = configSpecChecker v ∧
    (∀ r, validateInterviewConfig v = some r →
      (r.isValid = true ↔ amendedConfigOkB v = true)) := by
  refine ⟨validateInterviewConfig_eq_spec v, ?_⟩
  have htriv : ∀ xs : List JValue, truthy (JValue.jarr xs) = true := fun _ => rfl
  intro r hr
  rw [validateInterviewConfig_eq_spec v] at hr
  unfold configSpecChecker specHeaderViolation at hr
  by_cases ht : truthy v = true
  · by_cases hob : typeofIsObject v = true
    · by_cases hti : truthy (getF v "interview_type") = true
      · by_cases hs1 : isStrLit (getF v "interview_type") "screener" = true
        · by_cases hqt : truthy (getF v "questions") = true
          · cases hqa : getF v "questions" with
            | jarr qs =>
              by_cases hlen : qs.length = 0
              · simp [List.findSome?, ht, hob, hti, hs1, hqa, hqt, htriv, hlen] at hr
                have : qs = [] := List.length_eq_zero.mp hlen
                subst hr
                simp [amendedConfigOkB, hqa, this]
              · simp [List.findSome?, ht, hob, hti, hs1, hqa, hqt, htriv, hlen] at hr
                have hne : qs.isEmpty = false := by
                  cases qs with
                  | nil => simp at hlen
                  | cons a l => rfl
                rw [specQuestionsLoop_isValid qs 1 r hr]
                simp [amendedConfigOkB, hqa, hs1, hne]
            | jnull => rw [hqa] at hqt; simp [truthy] at hqt
            | jundefined => rw [hqa] at hqt; simp [truthy] at hqt
            | jbool b =>
              rw [hqa] at hqt
              simp [List.findSome?, ht, hob, hti, hs1, hqa, hqt] at hr
              subst hr
              simp [amendedConfigOkB, hqa]
            | jnum n =>
              rw [hqa] at hqt
              simp [List.findSome?, ht, hob, hti, hs1, hqa, hqt] at hr
              subst hr
              simp [amendedConfigOkB, hqa]
            | jstr t =>
              rw [hqa] at hqt
              simp [List.findSome?, ht, hob, hti, hs1, hqa, hqt] at hr
              subst hr
              simp [amendedConfigOkB, hqa]
            | jobj fs =>
              rw [hqa] at hqt
              simp [List.findSome?, ht, hob, hti, hs1, hqa, hqt] at hr
              subst hr
              simp [amendedConfigOkB, hqa]
          · simp [List.findSome?, ht, hob, hti, hs1, hqt] at hr
            subst hr
            cases hqa : getF v "questions" with
            | jarr qs => rw [hqa] at hqt; exact absurd rfl hqt
            | jnull => simp [amendedConfigOkB, hqa]
            | jundefined => simp [amendedConfigOkB, hqa]
            | jbool b => simp [amendedConfigOkB, hqa]
            | jnum n => simp [amendedConfigOkB, hqa]
            | jstr t => simp [amendedConfigOkB, hqa]
            | jobj fs => simp [amendedConfigOkB, hqa]
        · by_cases hs2 : isStrLit (getF v "interview_type") "exit" = true
          · by_cases hqt : truthy (getF v "questions") = true
            · cases hqa : getF v "questions" with
              | jarr qs =>
                by_cases hlen : qs.length = 0
                · simp [List.findSome?, ht, hob, hti, hs1, hs2, hqa, hqt, htriv, hlen] at hr
                  have : qs = [] := List.length_eq_zero.mp hlen
                  subst hr
                  simp [amendedConfigOkB, hqa, this]
                · simp [List.findSome?, ht, hob, hti, hs1, hs2, hqa, hqt, htriv, hlen] at hr
                  have hne : qs.isEmpty = false := by
                    cases qs with
                    | nil => simp at hlen
                    | cons a l => rfl
                  rw [specQuestionsLoop_isValid qs 1 r hr]
                  simp [amendedConfigOkB, hqa, hs2, hne]
              | jnull => rw [hqa] at hqt; simp [truthy] at hqt
              | jundefined => rw [hqa] at hqt; simp [truthy] at hqt
              | jbool b =>
                rw [hqa] at hqt
                simp [List.findSome?, ht, hob, hti, hs1, hs2, hqa, hqt] at hr
                subst hr
                simp [amendedConfigOkB, hqa]
              | jnum n =>
                rw [hqa] at hqt
                simp [List.findSome?, ht, hob, hti, hs1, hs2, hqa, hqt] at hr
                subst hr
                simp [amendedConfigOkB, hqa]
              | jstr t =>
                rw [hqa] at hqt
                simp [List.findSome?, ht, hob, hti, hs1, hs2, hqa, hqt] at hr
                subst hr
                simp [amendedConfigOkB, hqa]
              | jobj fs =>
                rw [hqa] at hqt
                simp [List.findSome?, ht, hob, hti, hs1, hs2, hqa, hqt] at hr
                subst hr
                simp [amendedConfigOkB, hqa]
            · simp [List.findSome?, ht, hob, hti, hs1, hs2, hqt] at hr
              subst hr
              cases hqa : getF v "questions" with
              | jarr qs => rw [hqa] at hqt; exact absurd rfl hqt
              | jnull => simp [amendedConfigOkB, hqa]
              | jundefined => simp [amendedConfigOkB, hqa]
              | jbool b => simp [amendedConfigOkB, hqa]
              | jnum n => simp [amendedConfigOkB, hqa]
              | jstr t => simp [amendedConfigOkB, hqa]
              | jobj fs => simp [amendedConfigOkB, hqa]
          · simp [List.findSome?, ht, hob, hti, hs1, hs2] at hr
            subst hr
            simp [amendedConfigOkB, hs1, hs2]
      · simp [List.findSome?, ht, hob, hti] at hr
        subst hr
        have hns : isStrLit (getF v "interview_type") "screener" = false :=
          isStrLit_false_of_not_truthy _ _ (by decide) hti
        have hne : isStrLit (getF v "interview_type") "exit" = false :=
          isStrLit_false_of_not_truthy _ _ (by decide) hti
        simp [amendedConfigOkB, hns, hne]
    · simp [List.findSome?, ht, hob] at hr
      subst hr
      have hv : ∀ fs, v ≠ JValue.jobj fs := by
        intro fs hx
        subst hx
        exact hob rfl
      simp [amendedConfigOkB_nonobj v hv]
  · simp [List.findSome?, ht] at hr
    subst hr
    have hv : ∀ fs, v ≠ JValue.jobj fs := by
      intro fs hx
      subst hx
      exact ht rfl
    simp [amendedConfigOkB_nonobj v hv]

/-- Witness for the configuration-validator theorem at a well-formed config. -/
theorem config_validator_fail_fast_witness :
    validateInterviewConfig goodConfig = some ⟨true, none⟩ ∧
    amendedConfigOkB goodConfig = true :=
  ⟨by decide, ((config_validator_fail_fast goodConfig).2 ⟨true, none⟩ (by decide)).mp (by decide)⟩

/-- C3 counterexample: a configuration whose question has the fractional
max_followups 0.5 is accepted by `validateInterviewConfig`, while the claim —
which demands a non-negative *integer* — calls it invalid. -/
theorem config_validator_claim_counterexample :
    validateInterviewConfig configCex = some ⟨true, none⟩ ∧
    claimConfigOkB configCex = false := by
  constructor
  · decide
  · decide

-- Claim C1 (follow-up budget invariant)

theorem step_cast {a b b' : EConfig} (h : Step a b) (he : b = b') : Step a b' :=
  he ▸ h

/-- C1 (amended: stated for a question whose max_followups is a non-negative
integer `k`, the intended domain of the spec data model — for a fractional budget
the count can exceed it, see the counterexample): in every reachable engine
configuration, the follow-up count never exceeds the budget `k` of the current
question. -/
theorem followup_count_bounded (c : EConfig) (h : Reachable c) (q : Question)
    (hq : getCurrentQuestion c.st = some q) (k : Nat) (hk : q.max_followups = (k : ℚ)) :
    c.st.currentFollowupCount ≤ k := by
  have hb := (reachable_inv h).bound q hq
  rw [hk, Int.ceil_natCast] at hb
  exact_mod_cast hb

theorem w1Reach : Reachable ⟨GNode.done, w1s2⟩ := by
  have s1 : Step initConfig ⟨GNode.ini, freshState⟩ :=
    step_cast (Step.entry freshState) (by decide)
  have s2 : Step ⟨GNode.ini, freshState⟩ ⟨GNode.askQuestion, w1s1⟩ :=
    Step.initOk freshState (some w1Config) "welcome" "t0" w1s1 (by decide)
  have s3 : Step ⟨GNode.askQuestion, w1s1⟩ ⟨GNode.done, w1s2⟩ :=
    Step.askOk w1s1 "q1" w1s2 (by decide)
  exact Relation.ReflTransGen.head s1 (Relation.ReflTransGen.head s2
    (Relation.ReflTransGen.head s3 Relation.ReflTransGen.refl))

/-- Witness for the follow-up bound at a concrete reachable configuration. -/
theorem followup_count_bounded_witness :
    Reachable ⟨GNode.done, w1s2⟩ ∧ getCurrentQuestion w1s2 = some w1Question ∧
    w1Question.max_followups = ((2 : Nat) : ℚ) ∧ w1s2.currentFollowupCount ≤ 2 :=
  ⟨w1Reach, by decide, by decide,
    followup_count_bounded ⟨GNode.done, w1s2⟩ w1Reach w1Question (by decide) 2 (by decide)⟩

theorem cxReach : Reachable ⟨GNode.done, cx8⟩ := by
  have s1 : Step initConfig ⟨GNode.ini, freshState⟩ :=
    step_cast (Step.entry freshState) (by decide)
  have s2 : Step ⟨GNode.ini, freshState⟩ ⟨GNode.askQuestion, cx1⟩ :=
    Step.initOk freshState (some cxConfig) "w" "t0" cx1 (by decide)
  have s3 : Step ⟨GNode.askQuestion, cx1⟩ ⟨GNode.done, cx2⟩ :=
    Step.askOk cx1 "q" cx2 (by decide)
  have s4 : Step ⟨GNode.done, cx2⟩ ⟨GNode.start, cx3⟩ :=
    step_cast (Step.userTurn cx2 "my answer") (by decide)
  have s5 : Step ⟨GNode.start, cx3⟩ ⟨GNode.translateIfNeeded, cx3⟩ :=
    step_cast (Step.entry cx3) (by decide)
  have s6 : Step ⟨GNode.translateIfNeeded, cx3⟩ ⟨GNode.validateFormat, cx4⟩ :=
    step_cast (Step.translate cx3 "my answer" true) (by decide)
  have s7 : Step ⟨GNode.validateFormat, cx4⟩ ⟨GNode.routeByType, cx5⟩ :=
    step_cast (Step.validateOk cx4 cx5 (by decide)) (by decide)
  have s8 : Step ⟨GNode.routeByType, cx5⟩ ⟨GNode.analyzeResponse, cx5⟩ :=
    step_cast (Step.routeByTypePass cx5) (by decide)
  have s9 : Step ⟨GNode.analyzeResponse, cx5⟩ ⟨GNode.empathyForFollowup, cx6⟩ :=
    step_cast (Step.analyze cx5 (Except.error ()) (Except.ok "incomplete")) (by decide)
  have s10 : Step ⟨GNode.empathyForFollowup, cx6⟩ ⟨GNode.generateFollowup, cx7⟩ :=
    step_cast (Step.empathyFU cx6 "I see") (by decide)
  have s11 : Step ⟨GNode.generateFollowup, cx7⟩ ⟨GNode.done, cx8⟩ :=
    Step.followupOk cx7 "Tell me more" false cx8 (by decide)
  exact Relation.ReflTransGen.head s1 (Relation.ReflTransGen.head s2
    (Relation.ReflTransGen.head s3 (Relation.ReflTransGen.head s4
    (Relation.ReflTransGen.head s5 (Relation.ReflTransGen.head s6
    (Relation.ReflTransGen.head s7 (Relation.ReflTransGen.head s8
    (Relation.ReflTransGen.head s9 (Relation.ReflTransGen.head s10
    (Relation.ReflTransGen.head s11 Relation.ReflTransGen.refl))))))))))

/-- C1 counterexample: with the validator-accepted fractional budget 0.5, a
reachable configuration holds one follow-up for the current question, so the
follow-up count exceeds the max_followups of the question as the claim states
it. -/
theorem followup_claim_counterexample :
    Reachable ⟨GNode.done, cx8⟩ ∧ getCurrentQuestion cx8 = some cxQuestion ∧
    ¬((cx8.currentFollowupCount : ℚ) ≤ cxQuestion.max_followups) :=
  ⟨cxReach, by decide, by decide⟩

-- Claim C2 (a concern-flagged turn never reaches the follow-up step)

theorem analyzeNode_scratch (s : EState) (co po : Except Unit String) :
    (analyzeNode s co po).currentFollowups = s.currentFollowups ∧
    (analyzeNode s co po).responses = s.responses := by
  unfold analyzeNode
  split <;> (try split) <;> simp

theorem respondToConcernsNode_scratch (s : EState) :
    (respondToConcernsNode s).currentFollowups = s.currentFollowups ∧
    (respondToConcernsNode s).responses = s.responses ∧
    (respondToConcernsNode s).categories = s.categories ∧
    (respondToConcernsNode s).currentFollowupCount = s.currentFollowupCount ∧
    (respondToConcernsNode s).questions = s.questions ∧
    (respondToConcernsNode s).currentQuestionIndex = s.currentQuestionIndex := by
  unfold respondToConcernsNode pushAssistant
  split <;> simp

theorem catsHasConcerns_analyzeNode_question (s : EState) (co po : Except Unit String)
    (hc : catsHasConcerns (analyzeNode s co po) = true) :
    ∃ q, getCurrentQuestion s = some q := by
  unfold analyzeNode at hc
  cases hq : getCurrentQuestion s with
  | none =>
    rw [hq] at hc
    simp [catsHasConcerns, defaultCats] at hc
  | some q => exact ⟨q, rfl⟩

theorem storeAssessmentNode_store (s s₃ : EState) (h : storeAssessmentNode s = some s₃) :
    ∃ resp, s₃.responses = s.responses ++ [resp] ∧ resp.hadConcerns = catsHasConcerns s ∧
      resp.followups = s.currentFollowups := by
  unfold storeAssessmentNode at h
  split at h
  · exact absurd h (by simp)
  · simp only [Option.some.injEq] at h
    subst h
    exact ⟨_, rfl, rfl, rfl⟩

theorem storeAssessmentNode_ne_none (s : EState) (q : Question)
    (hq : getCurrentQuestion s = some q) : storeAssessmentNode s ≠ none := by
  unfold storeAssessmentNode
  rw [hq]
  simp

/-- C2: whenever the analysis step marks the current turn as concerning, the
router sends it to `respondToConcerns`; that step always routes to
`storeAssessmentResponse`; the stored response carries `hadConcerns = true`
with exactly the follow-up exchanges already accumulated before the turn (no
new one added), the follow-up count is never incremented during the turn, and
the turn cannot reach the follow-up steps. -/
theorem concern_turn_no_followup (s : EState) (c₁ : EConfig)
    (h₁ : Step ⟨GNode.analyzeResponse, s⟩ c₁) (hc : catsHasConcerns c₁.st = true) :
    c₁.node = GNode.respondToConcerns ∧
    c₁.st.currentFollowupCount = s.currentFollowupCount ∧
    c₁.st.currentFollowups = s.currentFollowups ∧
    ∀ c₂ : EConfig, Step c₁ c₂ →
      c₂.node = GNode.storeAssessmentResponse ∧
      c₂.st.currentFollowupCount = s.currentFollowupCount ∧
      c₂.st.currentFollowups = s.currentFollowups ∧
      ∀ c₃ : EConfig, Step c₂ c₃ →
        ∃ resp, c₃.st.responses = c₂.st.responses ++ [resp] ∧
          resp.hadConcerns = true ∧ resp.followups = s.currentFollowups ∧
          c₃.node ≠ GNode.empathyForFollowup ∧ c₃.node ≠ GNode.generateFollowup := by
  cases h₁ with
  | analyze _ co po =>
    have hcc : catsHasConcerns (analyzeNode s co po) = true := hc
    have hqex : ∃ q, getCurrentQuestion s = some q :=
      catsHasConcerns_analyzeNode_question s co po hcc
    have hroute : routeAfterAnalysis (analyzeNode s co po) = GNode.respondToConcerns := by
      simp [routeAfterAnalysis, hcc]
    refine ⟨hroute, (analyzeNode_fields s co po).2.2.1, (analyzeNode_scratch s co po).1, ?_⟩
    intro c₂ h₂
    rw [hroute] at h₂
    cases h₂ with
    | respondConcerns _ =>
      have hsc := respondToConcernsNode_scratch (analyzeNode s co po)
      refine ⟨rfl, ?_, ?_, ?_⟩
      · rw [hsc.2.2.2.1]
        exact (analyzeNode_fields s co po).2.2.1
      · rw [hsc.1]
        exact (analyzeNode_scratch s co po).1
      · intro c₃ h₃
        have hcc₂ : catsHasConcerns (respondToConcernsNode (analyzeNode s co po)) = true := by
          unfold catsHasConcerns
          rw [hsc.2.2.1]
          exact hcc
        cases h₃ with
        | storeAssessOk _ s₃ hnode =>
          obtain ⟨resp, hresp, hhad, hfol⟩ :=
            storeAssessmentNode_store (respondToConcernsNode (analyzeNode s co po)) s₃ hnode
          refine ⟨resp, hresp, by rw [hhad]; exact hcc₂, ?_, ?_, ?_⟩
          · rw [hfol, hsc.1]
            exact (analyzeNode_scratch s co po).1
          · show routeAfterStore s₃ ≠ GNode.empathyForFollowup
            rcases routeAfterStore_cases s₃ with ⟨hh, _⟩ | ⟨hh, _⟩ <;> rw [hh] <;> decide
          · show routeAfterStore s₃ ≠ GNode.generateFollowup
            rcases routeAfterStore_cases s₃ with ⟨hh, _⟩ | ⟨hh, _⟩ <;> rw [hh] <;> decide
        | storeAssessThrow _ hnode =>
          exfalso
          obtain ⟨q, hq⟩ := hqex
          have e0 : getCurrentQuestion (respondToConcernsNode (analyzeNode s co po)) =
              getCurrentQuestion (analyzeNode s co po) :=
            getCurrentQuestion_congr _ _ hsc.2.2.2.2.1 hsc.2.2.2.2.2
          have e1 : getCurrentQuestion (analyzeNode s co po) = getCurrentQuestion s :=
            getCurrentQuestion_congr _ _ (analyzeNode_fields s co po).1
              (analyzeNode_fields s co po).2.1
          exact storeAssessmentNode_ne_none _ q (by rw [e0, e1]; exact hq) hnode
  | analyzeJoinFail hq0 hf0 =>
    exfalso
    have hcc : catsHasConcerns (analyzeJoinFailNode s) = true := hc
    simp [analyzeJoinFailNode, catsHasConcerns, defaultCats] at hcc

/-- Witness for the concern-turn theorem: an analysis step whose concern
check reported EEOC content routes to `respondToConcerns` without touching
the follow-up state. -/
theorem concern_turn_no_followup_witness :
    (⟨routeAfterAnalysis c2a, c2a⟩ : EConfig).node = GNode.respondToConcerns ∧
    c2a.currentFollowupCount = cx5.currentFollowupCount ∧
    c2a.currentFollowups = cx5.currentFollowups := by
  have h := concern_turn_no_followup cx5 ⟨routeAfterAnalysis c2a, c2a⟩
    (Step.analyze cx5 (Except.ok "eeoc") (Except.ok "complete")) (by decide)
  exact ⟨h.1, h.2.1, h.2.2.1⟩

-- Claim C4 (classification failure boundaries)

/-- C4: when the concern-check call throws, `analyzeResponseParallel` still
returns categories with `hasConcerns = false` and a null concern type; when
the joined parallel analysis fails as a whole, the full safe default is
installed; in both cases the node returns normally (the model functions are
total) and the router does not treat the turn as concerning. -/
theorem analysis_failure_safe (s : EState) (q : Question)
    (hq : getCurrentQuestion s = some q) (hf : s.llmFallback = false) :
    (∀ po, ∃ cats, (analyzeNode s (Except.error ()) po).categories = some cats ∧
      cats.hasConcerns = false ∧ cats.concernType = none) ∧
    (analyzeJoinFailNode s).categories =
      some ⟨false, none, none, true, false⟩ ∧
    (∀ po, routeAfterAnalysis (analyzeNode s (Except.error ()) po) ≠
      GNode.respondToConcerns) ∧
    routeAfterAnalysis (analyzeJoinFailNode s) = GNode.empathyForStore ∧
    checkConcernsAsyncFn (Except.error ()) = ⟨false, none, none⟩ := by
  have hcats : ∀ po, (analyzeNode s (Except.error ()) po).categories =
      some (ResponseCategories.mk false none none
        (checkProperResponseFn po).isProperResponse
        (checkProperResponseFn po).needsMoreContext) := by
    intro po
    unfold analyzeNode
    rw [hq]
    simp [hf, checkConcernsAsyncFn]
  refine ⟨?_, ?_, ?_, ?_, rfl⟩
  · intro po
    exact ⟨_, hcats po, rfl, rfl⟩
  · simp [analyzeJoinFailNode, defaultCats]
  · intro po
    have hcc : catsHasConcerns (analyzeNode s (Except.error ()) po) = false := by
      unfold catsHasConcerns
      rw [hcats po]
      rfl
    unfold routeAfterAnalysis
    rw [hcc]
    split
    · next hxx => exact absurd hxx (by simp)
    · split <;> simp
  · simp [routeAfterAnalysis, analyzeJoinFailNode, catsHasConcerns, catsIsProper, defaultCats]

/-- Witness for the failure-boundary theorem at a concrete state. -/
theorem analysis_failure_safe_witness :
    routeAfterAnalysis (analyzeJoinFailNode cx5) = GNode.empathyForStore ∧
    checkConcernsAsyncFn (Except.error ()) = ⟨false, none, none⟩ :=
  ⟨(analysis_failure_safe cx5 cxQuestion (by decide) (by decide)).2.2.2.1,
   (analysis_failure_safe cx5 cxQuestion (by decide) (by decide)).2.2.2.2⟩

-- Claim C8 (store frame conditions)

/-- C8: each store operation appends exactly one response at the pre-store
index, advances the index by one, preserves the earlier responses and the
configuration channels, and clears every per-turn scratch channel. -/
theorem store_frame_effects (s : EState) (q : Question)
    (hq : getCurrentQuestion s = some q) (ack : String) :
    (∃ s₂, storeBasicNode s ack = some s₂ ∧ storeFrame s s₂) ∧
    (∃ s₂, storeAssessmentNode s = some s₂ ∧ storeFrame s s₂) := by
  constructor
  · unfold storeBasicNode
    rw [hq]
    exact ⟨_, rfl, ⟨⟨_, rfl, rfl⟩, rfl, rfl, rfl, rfl, rfl, rfl, rfl, rfl, rfl, rfl, rfl⟩⟩
  · unfold storeAssessmentNode
    rw [hq]
    exact ⟨_, rfl, ⟨⟨_, rfl, rfl⟩, rfl, rfl, rfl, rfl, rfl, rfl, rfl, rfl, rfl, rfl, rfl⟩⟩

/-- Witness for the store frame conditions at a concrete state. -/
theorem store_frame_effects_witness :
    ∃ s₂, storeBasicNode cx5 "thanks" = some s₂ ∧ storeFrame cx5 s₂ :=
  (store_frame_effects cx5 cxQuestion (by decide) "thanks").1

-- Claim C9 (final transcript, built exactly once)

/-- C9: the completion step builds the transcript with `concernsDetected`
counting the stored responses flagged with concerns, the message log
flattened into role-tagged entries with the closing message appended last,
`questionCount` the catalog size and `questionsAnswered` the stored-response
count; and along any reachable execution the completion step only ever runs
on a not-yet-completed state, so the transcript is built exactly once. -/
theorem transcript_built_once :
    (∀ (s : EState) (closing now : String),
      ∃ T, (completeNode s closing now).transcript = some T ∧
        T.concernsDetected = (s.responses.filter (fun r => r.hadConcerns)).length ∧
        T.fullTranscript = s.messages.map (fun m => TranscriptMessage.mk
          (if m.role == Role.user then Role.user else Role.assistant) m.content now) ++
          [⟨Role.assistant, closing, now⟩] ∧
        T.questionCount = s.questions.length ∧
        T.questionsAnswered = s.responses.length) ∧
    (∀ c : EConfig, Reachable c → c.node = GNode.complete → c.st.isComplete = false) := by
  constructor
  · intro s closing now
    exact ⟨_, rfl, rfl, rfl, rfl, rfl⟩
  · intro c h hc
    cases hic : c.st.isComplete
    · rfl
    · exfalso
      rcases ((reachable_inv h).comp hic).1 with h1 | h1 | h1 | h1 | h1 <;>
        rw [hc] at h1 <;> exact absurd h1 (by decide)

theorem c9Reach : Reachable ⟨GNode.complete, c9s6⟩ := by
  have s1 : Step initConfig ⟨GNode.ini, freshState⟩ :=
    step_cast (Step.entry freshState) (by decide)
  have s2 : Step ⟨GNode.ini, freshState⟩ ⟨GNode.askQuestion, c9s1⟩ :=
    Step.initOk freshState (some c9Config) "w" "t0" c9s1 (by decide)
  have s3 : Step ⟨GNode.askQuestion, c9s1⟩ ⟨GNode.done, c9s2⟩ :=
    Step.askOk c9s1 "q" c9s2 (by decide)
  have s4 : Step ⟨GNode.done, c9s2⟩ ⟨GNode.start, c9s3⟩ :=
    step_cast (Step.userTurn c9s2 "yep") (by decide)
  have s5 : Step ⟨GNode.start, c9s3⟩ ⟨GNode.translateIfNeeded, c9s3⟩ :=
    step_cast (Step.entry c9s3) (by decide)
  have s6 : Step ⟨GNode.translateIfNeeded, c9s3⟩ ⟨GNode.validateFormat, c9s4⟩ :=
    step_cast (Step.translate c9s3 "yep" true) (by decide)
  have s7 : Step ⟨GNode.validateFormat, c9s4⟩ ⟨GNode.routeByType, c9s5⟩ :=
    step_cast (Step.validateOk c9s4 c9s5 (by decide)) (by decide)
  have s8 : Step ⟨GNode.routeByType, c9s5⟩ ⟨GNode.storeBasicResponse, c9s5⟩ :=
    step_cast (Step.routeByTypePass c9s5) (by decide)
  have s9 : Step ⟨GNode.storeBasicResponse, c9s5⟩ ⟨GNode.complete, c9s6⟩ :=
    step_cast (Step.storeBasicOk c9s5 "Got it." c9s6 (by decide)) (by decide)
  exact Relation.ReflTransGen.head s1 (Relation.ReflTransGen.head s2
    (Relation.ReflTransGen.head s3 (Relation.ReflTransGen.head s4
    (Relation.ReflTransGen.head s5 (Relation.ReflTransGen.head s6
    (Relation.ReflTransGen.head s7 (Relation.ReflTransGen.head s8
    (Relation.ReflTransGen.head s9 Relation.ReflTransGen.refl))))))))

/-- Witness for the transcript theorem: the completion step is reached on a
concrete run with `isComplete` still false, and building the transcript there
counts the single stored answer. -/
theorem transcript_built_once_witness :
    Reachable ⟨GNode.complete, c9s6⟩ ∧ c9s6.isComplete = false ∧
    ∃ T, (completeNode c9s6 "bye" "t1").transcript = some T ∧
      T.questionsAnswered = c9s6.responses.length := by
  refine ⟨c9Reach, transcript_built_once.2 ⟨GNode.complete, c9s6⟩ c9Reach rfl, ?_⟩
  obtain ⟨T, h1, _, _, _, h4⟩ := transcript_built_once.1 c9s6 "bye" "t1"
  exact ⟨T, h1, h4⟩
